import Mathlib

set_option maxRecDepth 100000

/-!
Verification development for the `python-nacha` library (`Nacha.py`).

The Python 2 source is shallowly embedded: record buffers (`bytearray`)
become `List Char`, in-place mutation becomes explicit state passing, and a
raised exception becomes either an `Except.error` (for the atomic
`NachaRecord.setValue` / `NachaRecord.getValue`, which perform all checks
before mutating) or a `(state, some message)` pair for compound operations,
which return the partially-mutated state exactly as Python leaves it behind
when an exception propagates mid-operation.
-/

/-! Python string primitives.  `pyRjust s w c` is `s.rjust(w, c)`:
it returns `s` unchanged when `w <= len(s)` and otherwise left-fills. -/

def pyRjust (s : List Char) (width : Nat) (fill : Char) : List Char :=
  if width ≤ s.length then s else List.replicate (width - s.length) fill ++ s

def pyLjust (s : List Char) (width : Nat) (fill : Char) : List Char :=
  if width ≤ s.length then s else s ++ List.replicate (width - s.length) fill

/-- Python slice read `data[start:stop]` (non-negative indices, clamped). -/
def pySlice (data : List Char) (start stop : Nat) : List Char :=
  (data.drop start).take (stop - start)

/-- Python slice assignment `data[start:stop] = v` on a `bytearray`
(non-negative indices, clamped; the buffer length changes when
`v.length ≠ stop - start`). -/
def pySliceSet (data : List Char) (start stop : Nat) (v : List Char) : List Char :=
  let n := data.length
  let s := min start n
  let e := max (min stop n) s
  data.take s ++ v ++ data.drop e

/-! Decimal representation of non-negative integers, matching Python `str`. -/

def digitChar (n : Nat) : Char :=
  match n with
  | 0 => '0' | 1 => '1' | 2 => '2' | 3 => '3' | 4 => '4'
  | 5 => '5' | 6 => '6' | 7 => '7' | 8 => '8' | _ => '9'

def natToDigitsAux (fuel n : Nat) : List Char :=
  match fuel with
  | 0 => []
  | fuel + 1 =>
    if n < 10 then [digitChar n]
    else natToDigitsAux fuel (n / 10) ++ [digitChar (n % 10)]

/-- Decimal digits of `n`, most significant first: Python `str(n)` for `n ≥ 0`. -/
def natToDigits (n : Nat) : List Char := natToDigitsAux (n + 1) n

/-- Python `str(i)` for an arbitrary integer. -/
def intRepr (i : Int) : List Char :=
  if i < 0 then '-' :: natToDigits i.natAbs else natToDigits i.toNat

/-! Python `int(...)` on strings and single characters. -/

def isDigitChar (c : Char) : Bool := decide ('0' ≤ c) && decide (c ≤ '9')

def allDigits (s : List Char) : Bool := s.all isDigitChar

def digitsVal (s : List Char) : Nat := s.foldl (fun a c => a * 10 + (c.toNat - 48)) 0

/-- Python `int(c)` on a single character: its digit value, or a `ValueError`. -/
def pyDigitVal (c : Char) : Option Nat :=
  if isDigitChar c then some (c.toNat - 48) else none

/-- Python `s.strip()` restricted to the space character (the only
whitespace that occurs in the 94-byte buffers). -/
def pyStrip (s : List Char) : List Char :=
  ((s.dropWhile (· == ' ')).reverse.dropWhile (· == ' ')).reverse

/-- Python `int(s)`: strip whitespace, optional sign, at least one digit;
`none` models the `ValueError` raised on anything else. -/
def pyInt (s : List Char) : Option Int :=
  match pyStrip s with
  | [] => none
  | c :: rest =>
    if c == '-' then
      if !rest.isEmpty && allDigits rest then some (-(digitsVal rest : Int)) else none
    else if c == '+' then
      if !rest.isEmpty && allDigits rest then some ((digitsVal rest : Int)) else none
    else
      if allDigits (c :: rest) then some ((digitsVal (c :: rest) : Int)) else none

/-! The record model (`NachaField`, `NachaRecord`). -/

def NUMERIC : Nat := 0
def ALPHAMERIC : Nat := 1
def ROUTING : Nat := 2

structure NachaField where
  name : String
  start : Nat
  stop : Nat
  type : Option Nat
deriving DecidableEq

/-- Constructor `NachaField.__init__(name, start, end)`: stores `start - 1` (0-based)
and the exclusive end. -/
def NachaField.make (name : String) (start stop : Nat) : NachaField :=
  ⟨name, start - 1, stop, none⟩

def NachaField.setType (f : NachaField) (t : Nat) : NachaField :=
  { f with type := some t }

/-- The `PADDING_FUNCTION` / `PADDING_CHAR` dispatch:
`("rjust", "ljust", "rjust")` with fill `("0", " ", " ")`. -/
def padApply (t : Nat) (v : List Char) (width : Nat) : List Char :=
  match t with
  | 0 => pyRjust v width '0'
  | 1 => pyLjust v width ' '
  | _ => pyRjust v width ' '

structure NachaRecord where
  locked : Bool
  fields : List (String × NachaField)
  data : List Char
deriving DecidableEq

/-- Constructor `NachaRecord.__init__`: unlocked, no fields yet, 94 spaces. -/
def NachaRecord.init : NachaRecord :=
  ⟨false, [], List.replicate 94 ' '⟩

def findField (fields : List (String × NachaField)) (fieldName : String) : Option NachaField :=
  (fields.find? (fun p => p.1 == fieldName)).map (·.2)

def NachaRecord.lock (r : NachaRecord) : NachaRecord := { r with locked := true }

/-- Method `NachaRecord.setValue`: locked check, field lookup, padding by field
type, then `self.data[start:end] = str(value)[0:end - start]`.  All checks
precede the single mutation, so `Except` is a faithful model. -/
def NachaRecord.setValue (r : NachaRecord) (fieldName : String) (value : List Char) :
    Except String NachaRecord :=
  if r.locked then .error "Cannot set values on a locked record."
  else
    match findField r.fields fieldName with
    | some field =>
      let start := field.start
      let stop := field.stop
      let v := match field.type with
        | some t => padApply t value (stop - start)
        | none => value
      .ok { r with data := pySliceSet r.data start stop (v.take (stop - start)) }
    | none => .error (fieldName ++ " isn't defined in the record.")

/-- Method `NachaRecord.getValue`: `str(self.data[start:end])`. -/
def NachaRecord.getValue (r : NachaRecord) (fieldName : String) : Except String (List Char) :=
  match findField r.fields fieldName with
  | some field => .ok (pySlice r.data field.start field.stop)
  | none => .error (fieldName ++ " isn't defined in the record.")

def NachaRecord.toString (r : NachaRecord) : List Char := r.data

/-- Sequential statements `self.setValue(...)`; an exception aborts the rest. -/
def recordSetValues (r : NachaRecord) (kvs : List (String × List Char)) :
    NachaRecord × Option String :=
  match kvs with
  | [] => (r, none)
  | (n, v) :: rest =>
    match NachaRecord.setValue r n v with
    | .error e => (r, some e)
    | .ok r1 => recordSetValues r1 rest

/-- Sequencing of Python statements: stop at the first raised exception,
keeping the state mutated so far. -/
def andThen {α : Type} (step : α × Option String) (k : α → α × Option String) :
    α × Option String :=
  match step with
  | (a, some e) => (a, some e)
  | (a, none) => k a

/-- Python `int(...)` applied to a `getValue` result (a `NachaError` from
`getValue` and a `ValueError` from `int` both abort the caller). -/
def pyIntOfExcept (x : Except String (List Char)) : Option Int :=
  match x with
  | .ok s => pyInt s
  | .error _ => none

def pyIntField (r : NachaRecord) (fieldName : String) : Option Int :=
  pyIntOfExcept (r.getValue fieldName)

/-! The five record layouts (field tables from the five `__init__`s). -/

def fileHeaderFields : List (String × NachaField) :=
  [("recordType", NachaField.make "Record Type" 1 1),
   ("priorityCode", (NachaField.make "Priority Code" 2 3).setType NUMERIC),
   ("destination", (NachaField.make "Immediate Destination" 4 13).setType ROUTING),
   ("origin", (NachaField.make "Immediate Origin" 14 23).setType ROUTING),
   ("creationDate", NachaField.make "File Creation Date" 24 29),
   ("creationTime", NachaField.make "File Creation Time" 30 33),
   ("fileIdModifier", NachaField.make "File ID Modifier" 34 34),
   ("recordSize", NachaField.make "Record Size" 35 37),
   ("blockingFactor", NachaField.make "Blocking Factor" 38 39),
   ("formatCode", NachaField.make "Format Code" 40 40),
   ("destinationName", (NachaField.make "Immediate Destination Name" 41 63).setType ALPHAMERIC),
   ("originName", (NachaField.make "Immediate Origin Name" 64 86).setType ALPHAMERIC),
   ("refCode", (NachaField.make "Reference Code" 87 94).setType ALPHAMERIC)]

def fileControlFields : List (String × NachaField) :=
  [("recordType", NachaField.make "Record Type" 1 1),
   ("batchCount", (NachaField.make "Batch Count" 2 7).setType NUMERIC),
   ("blockCount", (NachaField.make "Block Count" 8 13).setType NUMERIC),
   ("entryCount", (NachaField.make "Entry Count" 14 21).setType NUMERIC),
   ("entryHash", (NachaField.make "Entry Hash" 22 31).setType NUMERIC),
   ("debitAmount", (NachaField.make "Total Debit Amount" 32 43).setType NUMERIC),
   ("creditAmount", (NachaField.make "Total Credit Amount" 44 55).setType NUMERIC),
   ("reserved", NachaField.make "Reserved" 56 94)]

def batchHeaderFields : List (String × NachaField) :=
  [("recordType", NachaField.make "Record Type" 1 1),
   ("serviceCode", (NachaField.make "Service Class Code" 2 4).setType NUMERIC),
   ("companyName", (NachaField.make "Company Name" 5 20).setType ALPHAMERIC),
   ("companyData", (NachaField.make "Company Discretionary Date" 21 40).setType ALPHAMERIC),
   ("companyId", (NachaField.make "Company Identification" 41 50).setType ALPHAMERIC),
   ("entryClassCode", (NachaField.make "Standard Entry Class Code" 51 53).setType ALPHAMERIC),
   ("entryDescription", (NachaField.make "Company Entry Description" 54 63).setType ALPHAMERIC),
   ("descriptiveDate", (NachaField.make "Company Descriptive Date" 64 69).setType ALPHAMERIC),
   ("entryDate", NachaField.make "Effective Entry Date" 70 75),
   ("settlementDate", (NachaField.make "Settlement Date" 76 78).setType NUMERIC),
   ("originatorCode", NachaField.make "Originator Status Code" 79 79),
   ("odfiId", (NachaField.make "Originating DFI Identification" 80 87).setType ALPHAMERIC),
   ("batchNumber", (NachaField.make "Batch Number" 88 94).setType NUMERIC)]

def batchControlFields : List (String × NachaField) :=
  [("recordType", NachaField.make "Record Type" 1 1),
   ("serviceCode", (NachaField.make "Service Class Code" 2 4).setType NUMERIC),
   ("entryCount", (NachaField.make "Entry/Addenda Count" 5 10).setType NUMERIC),
   ("entryHash", (NachaField.make "Entry Hash" 11 20).setType NUMERIC),
   ("debitAmount", (NachaField.make "Total Debit Entry Dollar Amount" 21 32).setType NUMERIC),
   ("creditAmount", (NachaField.make "Total Credit Entry Dollar Amount" 33 44).setType NUMERIC),
   ("companyId", (NachaField.make "Company Identification" 45 54).setType ALPHAMERIC),
   ("authCode", (NachaField.make "Message Authentication Code" 55 73).setType ALPHAMERIC),
   ("reserved", NachaField.make "Reserved" 74 79),
   ("odfiId", NachaField.make "Originating DFI Identification" 80 87),
   ("batchNumber", (NachaField.make "Batch Number" 88 94).setType NUMERIC)]

def entryFields : List (String × NachaField) :=
  [("recordType", NachaField.make "Record Type" 1 1),
   ("transactionCode", (NachaField.make "Transaction Code" 2 3).setType NUMERIC),
   ("rdfiId", NachaField.make "Receiving DFI Identification" 4 11),
   ("checkDigit", (NachaField.make "Check Digit" 12 12).setType NUMERIC),
   ("dfiAccountNumber", (NachaField.make "DFI Account Number" 13 29).setType ALPHAMERIC),
   ("amount", (NachaField.make "Amonut" 30 39).setType NUMERIC),
   ("idNumber", (NachaField.make "Individual Identification Number" 40 54).setType ALPHAMERIC),
   ("name", (NachaField.make "Individual Name" 55 76).setType ALPHAMERIC),
   ("data", (NachaField.make "Discretionary Data" 77 78).setType ALPHAMERIC),
   ("addenda", (NachaField.make "Addenda Record Indicator" 79 79).setType NUMERIC),
   ("traceNumber", (NachaField.make "Trace Number" 80 94).setType NUMERIC),
   ("odfiId", NachaField.make "Trace Number - Originating DFI Identification" 80 88),
   ("sequenceNumber", (NachaField.make "Trace Number - Sequence Number" 88 94).setType NUMERIC)]

/-! Record constructors.  Date strings (`datetime.today().strftime(...)`,
the weekend-adjusted effective date) are formatted by the Python standard
library, outside the core; they enter the model as already-formatted
parameters. -/

def NachaFileHeader.init (fileIdModifier creationDate creationTime : List Char) :
    NachaRecord × Option String :=
  recordSetValues { NachaRecord.init with fields := fileHeaderFields }
    [("recordType", "1".toList), ("priorityCode", "01".toList),
     ("creationDate", creationDate), ("creationTime", creationTime),
     ("recordSize", "094".toList), ("blockingFactor", "10".toList),
     ("formatCode", "1".toList), ("refCode", "C4 TECH".toList),
     ("fileIdModifier", fileIdModifier)]

def NachaFileControl.init : NachaRecord × Option String :=
  recordSetValues { NachaRecord.init with fields := fileControlFields }
    [("recordType", "9".toList)]

def NachaBatchHeader.init : NachaRecord × Option String :=
  recordSetValues { NachaRecord.init with fields := batchHeaderFields }
    [("recordType", "5".toList)]

def NachaBatchControl.init : NachaRecord × Option String :=
  recordSetValues { NachaRecord.init with fields := batchControlFields }
    [("recordType", "8".toList)]

def NachaBatchHeader.MIXED_SERVICE : List Char := "200".toList
def NachaBatchHeader.CREDITS_ONLY_SERVICE : List Char := "220".toList
def NachaBatchHeader.DEBITS_ONLY_SERVICE : List Char := "225".toList
def NachaBatchHeader.ADVICES_SERVICE : List Char := "280".toList

def NachaEntry.CHECK_DIGIT_WEIGHTS : List Nat := [3, 7, 1, 3, 7, 1, 3, 7]

/-- Method `NachaEntry.calculateCheckDigit`: weighted digit sum of the current
`rdfiId` bytes; `none` models the `ValueError` from `int(char)` on a
non-digit byte.  Note `nextTen - total = 10 - total % 10`, which is `10`
(not `0`) when `total % 10 == 0`. -/
def calculateCheckDigit (r : NachaRecord) : Option Nat :=
  match r.getValue "rdfiId" with
  | .error _ => none
  | .ok rdfiId =>
    match rdfiId.mapM pyDigitVal with
    | none => none
    | some rdfiList =>
      let total := (List.zipWith (· * ·) NachaEntry.CHECK_DIGIT_WEIGHTS rdfiList).sum
      let nextTen := total + (10 - total % 10)
      some (nextTen - total)

/-- The `NachaEntry.setValue` override: the plain write, then, when the field
is `rdfiId`, a second write of the recomputed check digit.  The first
write persists even if the check-digit computation raises. -/
def NachaEntry.setValue (r : NachaRecord) (fieldName : String) (value : List Char) :
    NachaRecord × Option String :=
  match NachaRecord.setValue r fieldName value with
  | .error e => (r, some e)
  | .ok r1 =>
    if fieldName == "rdfiId" then
      match calculateCheckDigit r1 with
      | none => (r1, some "ValueError: invalid literal for int()")
      | some d =>
        match NachaRecord.setValue r1 "checkDigit" (natToDigits d) with
        | .error e => (r1, some e)
        | .ok r2 => (r2, none)
    else (r1, none)

/-- Sequential `self.setValue(...)` statements on an entry (the override). -/
def entrySetValues (r : NachaRecord) (kvs : List (String × List Char)) :
    NachaRecord × Option String :=
  match kvs with
  | [] => (r, none)
  | (n, v) :: rest =>
    match NachaEntry.setValue r n v with
    | (r1, some e) => (r1, some e)
    | (r1, none) => entrySetValues r1 rest

def NachaEntry.init (transCode rdfiId dfiActNum amount id name : List Char) :
    NachaRecord × Option String :=
  entrySetValues { NachaRecord.init with fields := entryFields }
    [("recordType", "6".toList), ("addenda", "0".toList),
     ("transactionCode", transCode), ("rdfiId", rdfiId),
     ("dfiAccountNumber", dfiActNum), ("amount", amount),
     ("idNumber", id), ("name", name)]

/-! Batches. -/

structure NachaBatch where
  finalized : Bool
  entries : List NachaRecord
  batchHeader : NachaRecord
  batchControl : NachaRecord
deriving DecidableEq

def NachaBatch.headerSetValue (b : NachaBatch) (n : String) (v : List Char) :
    NachaBatch × Option String :=
  match b.batchHeader.setValue n v with
  | .error e => (b, some e)
  | .ok h => ({ b with batchHeader := h }, none)

def NachaBatch.controlSetValue (b : NachaBatch) (n : String) (v : List Char) :
    NachaBatch × Option String :=
  match b.batchControl.setValue n v with
  | .error e => (b, some e)
  | .ok c => ({ b with batchControl := c }, none)

/-- Method `NachaBatch.setDualField`: header write then control write; a failing
control write leaves the header write in place. -/
def NachaBatch.setDualField (b : NachaBatch) (fieldName : String) (value : List Char) :
    NachaBatch × Option String :=
  andThen (b.headerSetValue fieldName value) fun b1 =>
    b1.controlSetValue fieldName value

/-- Constructor `NachaBatch.__init__` (the two date strings arrive pre-formatted). -/
def NachaBatch.init (serviceCode classCode companyName description companyId odfiId
    descriptiveDate entryDate : List Char) : NachaBatch × Option String :=
  let hdrI := NachaBatchHeader.init
  let ctlI := NachaBatchControl.init
  let b0 : NachaBatch := ⟨false, [], hdrI.1, ctlI.1⟩
  match hdrI.2 with
  | some e => (b0, some e)
  | none =>
    match ctlI.2 with
    | some e => (b0, some e)
    | none =>
      andThen (b0.setDualField "serviceCode" serviceCode) fun b =>
      andThen (b.headerSetValue "entryClassCode" classCode) fun b =>
      andThen (b.headerSetValue "companyName" companyName) fun b =>
      andThen (b.headerSetValue "entryDescription" description) fun b =>
      andThen (b.headerSetValue "descriptiveDate" descriptiveDate) fun b =>
      andThen (b.headerSetValue "entryDate" entryDate) fun b =>
      andThen (b.setDualField "companyId" companyId) fun b =>
      b.setDualField "odfiId" odfiId

/-- Method `NachaBatch.addEntry`.  Returns the batch, the caller's (possibly
mutated, possibly locked) entry, and the raised error if any. -/
def NachaBatch.addEntry (b : NachaBatch) (entry : NachaRecord) :
    NachaBatch × NachaRecord × Option String :=
  if !b.finalized then
    match b.batchHeader.getValue "odfiId" with
    | .error e => (b, entry, some e)
    | .ok odfi =>
      match NachaEntry.setValue entry "odfiId" odfi with
      | (e1, some err) => (b, e1, some err)
      | (e1, none) =>
        match NachaEntry.setValue e1 "sequenceNumber" (natToDigits (b.entries.length + 1)) with
        | (e2, some err) => (b, e2, some err)
        | (e2, none) =>
          let e3 := e2.lock
          ({ b with entries := b.entries ++ [e3] }, e3, none)
  else (b, entry, some "Entries cannot be added after the batch has been finalized.")

/-- The accumulation loop of `NachaBatch.finalize`: entry hash plus
service-class-gated debit/credit totals. -/
def entryTotalsLoop (serviceCode : List Char) (entries : List NachaRecord)
    (entryHash debitAmount creditAmount : Int) : Option (Int × Int × Int) :=
  match entries with
  | [] => some (entryHash, debitAmount, creditAmount)
  | entry :: rest =>
    match pyIntField entry "rdfiId" with
    | none => none
    | some rv =>
      match (if serviceCode == NachaBatchHeader.DEBITS_ONLY_SERVICE
                || serviceCode == NachaBatchHeader.MIXED_SERVICE then
               (pyIntField entry "amount").map (debitAmount + ·)
             else some debitAmount) with
      | none => none
      | some d =>
        match (if serviceCode == NachaBatchHeader.CREDITS_ONLY_SERVICE
                  || serviceCode == NachaBatchHeader.MIXED_SERVICE then
                 (pyIntField entry "amount").map (creditAmount + ·)
               else some creditAmount) with
        | none => none
        | some c => entryTotalsLoop serviceCode rest (entryHash + rv) d c

/-- Method `NachaBatch.finalize(batchNumber)`. -/
def NachaBatch.finalize (b : NachaBatch) (batchNumber : Nat) : NachaBatch × Option String :=
  if b.finalized then (b, none)
  else
    andThen (b.setDualField "batchNumber" (natToDigits batchNumber)) fun b =>
    andThen (b.controlSetValue "entryCount" (natToDigits b.entries.length)) fun b =>
    match b.batchHeader.getValue "serviceCode" with
    | .error e => (b, some e)
    | .ok serviceCode =>
      match entryTotalsLoop serviceCode b.entries 0 0 0 with
      | none => (b, some "ValueError: invalid literal for int()")
      | some (entryHash, debitAmount, creditAmount) =>
        let entryHash := Int.emod entryHash 10000000000
        andThen (b.controlSetValue "entryHash" (intRepr entryHash)) fun b =>
        andThen (b.controlSetValue "creditAmount" (intRepr creditAmount)) fun b =>
        andThen (b.controlSetValue "debitAmount" (intRepr debitAmount)) fun b =>
        ({ b with batchHeader := b.batchHeader.lock,
                  batchControl := b.batchControl.lock,
                  finalized := true }, none)

def NACHA_EOL : List Char := ['\r', '\n']

/-- Python `NACHA_EOL.join(...)`. -/
def crlfJoin (l : List (List Char)) : List Char :=
  match l with
  | [] => []
  | [x] => x
  | x :: rest => x ++ NACHA_EOL ++ crlfJoin rest

def NachaBatch.toString (b : NachaBatch) : List Char :=
  crlfJoin [b.batchHeader.toString, crlfJoin (b.entries.map NachaRecord.toString),
            b.batchControl.toString]

/-! Files. -/

structure NachaFile where
  finalized : Bool
  batches : List NachaBatch
  nineFill : List Char
  fileHeader : NachaRecord
  fileControl : NachaRecord
deriving DecidableEq

def NachaFile.headerSetValue (f : NachaFile) (n : String) (v : List Char) :
    NachaFile × Option String :=
  match f.fileHeader.setValue n v with
  | .error e => (f, some e)
  | .ok h => ({ f with fileHeader := h }, none)

def NachaFile.controlSetValue (f : NachaFile) (n : String) (v : List Char) :
    NachaFile × Option String :=
  match f.fileControl.setValue n v with
  | .error e => (f, some e)
  | .ok c => ({ f with fileControl := c }, none)

/-- Constructor `NachaFile.__init__` (creation date/time strings arrive pre-formatted). -/
def NachaFile.init (modifier destination destinationName origin originName
    creationDate creationTime : List Char) : NachaFile × Option String :=
  let hdrI := NachaFileHeader.init modifier creationDate creationTime
  let ctlI := NachaFileControl.init
  let f0 : NachaFile := ⟨false, [], [], hdrI.1, ctlI.1⟩
  match hdrI.2 with
  | some e => (f0, some e)
  | none =>
    match ctlI.2 with
    | some e => (f0, some e)
    | none =>
      andThen (f0.headerSetValue "destination" destination) fun f =>
      andThen (f.headerSetValue "origin" origin) fun f =>
      andThen (f.headerSetValue "destinationName" destinationName) fun f =>
      f.headerSetValue "originName" originName

/-- Method `NachaFile.addBatch`: finalize the batch with its 1-based position,
then append it.  Returns the file, the caller's batch, and any error. -/
def NachaFile.addBatch (f : NachaFile) (batch : NachaBatch) :
    NachaFile × NachaBatch × Option String :=
  if !f.finalized then
    match batch.finalize (f.batches.length + 1) with
    | (b1, some e) => (f, b1, some e)
    | (b1, none) => ({ f with batches := f.batches ++ [b1] }, b1, none)
  else (f, batch, some "Batches cannot be added after the file is finalized.")

/-- The accumulation loop of `NachaFile.finalize` over the batch controls. -/
def batchTotalsLoop (batches : List NachaBatch)
    (entryCount entryHash debitAmount creditAmount : Int) :
    Option (Int × Int × Int × Int) :=
  match batches with
  | [] => some (entryCount, entryHash, debitAmount, creditAmount)
  | batch :: rest =>
    match pyIntField batch.batchControl "entryCount",
          pyIntField batch.batchControl "entryHash",
          pyIntField batch.batchControl "debitAmount",
          pyIntField batch.batchControl "creditAmount" with
    | some e, some h, some d, some c =>
      batchTotalsLoop rest (entryCount + e) (entryHash + h) (debitAmount + d) (creditAmount + c)
    | _, _, _, _ => none

/-- Method `NachaFile.finalize`.  `Int.fdiv`/`Int.emod` are Python's floor
division and modulo (they agree for the non-negative values that occur). -/
def NachaFile.finalize (f : NachaFile) : NachaFile × Option String :=
  if f.finalized then (f, none)
  else
    andThen (f.controlSetValue "batchCount" (natToDigits f.batches.length)) fun f =>
    match batchTotalsLoop f.batches 0 0 0 0 with
    | none => (f, some "ValueError: invalid literal for int()")
    | some (entryCount, entryHash, debitAmount, creditAmount) =>
      andThen (f.controlSetValue "entryCount" (intRepr entryCount)) fun f =>
      let entryHash := Int.emod entryHash 10000000000
      andThen (f.controlSetValue "entryHash" (intRepr entryHash)) fun f =>
      andThen (f.controlSetValue "debitAmount" (intRepr debitAmount)) fun f =>
      andThen (f.controlSetValue "creditAmount" (intRepr creditAmount)) fun f =>
      match pyIntOfExcept (f.fileHeader.getValue "blockingFactor") with
      | none => (f, some "ValueError: invalid literal for int()")
      | some blockingFactor =>
        if blockingFactor = 0 then (f, some "ZeroDivisionError")
        else
          let recordCount : Int := 2 + (f.batches.length * 2) + entryCount
          let blockCount := Int.fdiv recordCount blockingFactor
          let blockMod := Int.emod recordCount blockingFactor
          let fb : NachaFile × Int :=
            if blockMod ≠ 0 then
              ({ f with nineFill :=
                   crlfJoin (List.replicate (blockingFactor - blockMod).toNat
                     (List.replicate 94 '9')) }, blockCount + 1)
            else (f, blockCount)
          andThen (fb.1.controlSetValue "blockCount" (intRepr fb.2)) fun f =>
          ({ f with fileHeader := f.fileHeader.lock,
                    fileControl := f.fileControl.lock,
                    finalized := true }, none)

def NachaFile.toString (f : NachaFile) : List Char :=
  crlfJoin [f.fileHeader.toString, crlfJoin (f.batches.map NachaBatch.toString),
            f.fileControl.toString, f.nineFill]

/-- Method `NachaFile.writeToFile`: the finalization guard around the render; the
actual disk write is I/O outside the core, so the model returns the text
that would be written. -/
def NachaFile.writeToFile (f : NachaFile) : Except String (List Char) :=
  if f.finalized then .ok f.toString
  else .error "The file cannot be written until it is finalized."

/-! Basic lemmas about the Python slice primitives. -/

theorem pySliceSet_eq_of_bounds (data v : List Char) (s e : Nat)
    (hse : s ≤ e) (hen : e ≤ data.length) :
    pySliceSet data s e v = data.take s ++ v ++ data.drop e := by
  have h1 : min s data.length = s := by omega
  have h2 : min e data.length = e := by omega
  have h3 : max e s = e := by omega
  simp only [pySliceSet, h1, h2, h3]

theorem pySliceSet_length (data v : List Char) (s e : Nat)
    (hse : s ≤ e) (hen : e ≤ data.length) (hv : v.length = e - s) :
    (pySliceSet data s e v).length = data.length := by
  rw [pySliceSet_eq_of_bounds data v s e hse hen]
  simp only [List.length_append, List.length_take, List.length_drop]
  omega

theorem pySlice_pySliceSet_self (data v : List Char) (s e : Nat)
    (hse : s ≤ e) (hen : e ≤ data.length) (hv : v.length = e - s) :
    pySlice (pySliceSet data s e v) s e = v := by
  rw [pySliceSet_eq_of_bounds data v s e hse hen]
  unfold pySlice
  have h1 : (data.take s).length = s := by
    simp only [List.length_take]; omega
  rw [List.append_assoc, List.drop_left' h1, ← hv, List.take_left]

theorem pySlice_eq_take_drop (l : List Char) (s e : Nat) :
    pySlice l s e = (l.take e).drop s := by
  rw [List.drop_take]; rfl

theorem pySlice_pySliceSet_right (data v : List Char) (s e s2 e2 : Nat)
    (hse : s ≤ e) (hen : e ≤ data.length) (hv : v.length = e - s) (h2 : e ≤ s2) :
    pySlice (pySliceSet data s e v) s2 e2 = pySlice data s2 e2 := by
  rw [pySliceSet_eq_of_bounds data v s e hse hen]
  unfold pySlice
  congr 1
  have hA : (data.take s ++ v).length = e := by
    simp only [List.length_append, List.length_take]; omega
  calc (data.take s ++ v ++ data.drop e).drop s2
      = (data.take s ++ v).drop s2 ++ (data.drop e).drop (s2 - (data.take s ++ v).length) := by
        rw [List.drop_append_eq_append_drop]
    _ = data.drop s2 := by
        rw [hA, List.drop_eq_nil_of_le (by omega), List.drop_drop, List.nil_append]
        congr 1
        omega

theorem pySlice_pySliceSet_left (data v : List Char) (s e s2 e2 : Nat)
    (hse : s ≤ e) (hen : e ≤ data.length) (hv : v.length = e - s) (h2 : e2 ≤ s) :
    pySlice (pySliceSet data s e v) s2 e2 = pySlice data s2 e2 := by
  rw [pySliceSet_eq_of_bounds data v s e hse hen,
      pySlice_eq_take_drop, pySlice_eq_take_drop]
  congr 1
  have hAl : (data.take s).length = s := by
    simp only [List.length_take]; omega
  rw [List.append_assoc, List.take_append_eq_append_take, hAl,
      Nat.sub_eq_zero_of_le h2, List.take_zero, List.append_nil,
      List.take_take, Nat.min_eq_left h2]

/-! Padding lemmas. -/

theorem padApply_length_ge (t : Nat) (v : List Char) (w : Nat) :
    w ≤ (padApply t v w).length := by
  rcases t with _ | _ | t
  · simp only [padApply, pyRjust]
    split <;> (try simp only [List.length_append, List.length_replicate]) <;> omega
  · simp only [padApply, pyLjust]
    split <;> (try simp only [List.length_append, List.length_replicate]) <;> omega
  · simp only [padApply, pyRjust]
    split <;> (try simp only [List.length_append, List.length_replicate]) <;> omega

theorem padApply_take_length (t : Nat) (v : List Char) (w : Nat) :
    ((padApply t v w).take w).length = w := by
  have h := padApply_length_ge t v w
  simp only [List.length_take]
  omega

theorem pyRjust_eq_of_le (v : List Char) (w : Nat) (c : Char) (h : v.length ≤ w) :
    pyRjust v w c = List.replicate (w - v.length) c ++ v := by
  unfold pyRjust
  split
  · have hw : w - v.length = 0 := by omega
    rw [hw]
    simp
  · rfl

theorem pyLjust_eq_of_le (v : List Char) (w : Nat) (c : Char) (h : v.length ≤ w) :
    pyLjust v w c = v ++ List.replicate (w - v.length) c := by
  unfold pyLjust
  split
  · have hw : w - v.length = 0 := by omega
    rw [hw]
    simp
  · rfl

/-! Decimal digit lemmas. -/

theorem digitChar_isDigit (n : Nat) : isDigitChar (digitChar n) = true := by
  rcases n with _ | _ | _ | _ | _ | _ | _ | _ | _ | m <;> rfl

theorem digitChar_val (n : Nat) (h : n < 10) : (digitChar n).toNat - 48 = n := by
  interval_cases n <;> rfl

theorem digitsVal_foldl (a : Nat) (s : List Char) :
    s.foldl (fun x c => x * 10 + (c.toNat - 48)) a = a * 10 ^ s.length + digitsVal s := by
  induction s generalizing a with
  | nil => simp [digitsVal]
  | cons c cs ih =>
    simp only [List.foldl_cons, digitsVal, List.length_cons]
    rw [ih (a * 10 + (c.toNat - 48)), ih (0 * 10 + (c.toNat - 48))]
    ring

theorem digitsVal_append (x y : List Char) :
    digitsVal (x ++ y) = digitsVal x * 10 ^ y.length + digitsVal y := by
  unfold digitsVal
  rw [List.foldl_append, digitsVal_foldl]
  rfl

theorem digitsVal_replicate_zero (k : Nat) : digitsVal (List.replicate k '0') = 0 := by
  induction k with
  | zero => rfl
  | succ k ih =>
    show digitsVal ('0' :: List.replicate k '0') = 0
    unfold digitsVal at *
    simp only [List.foldl_cons]
    convert ih using 2

theorem natToDigitsAux_val (fuel : Nat) : ∀ n : Nat, n < 10 ^ fuel →
    digitsVal (natToDigitsAux fuel n) = n := by
  induction fuel with
  | zero =>
    intro n hn
    have : n = 0 := by simpa using hn
    subst this
    rfl
  | succ fuel ih =>
    intro n hn
    rw [natToDigitsAux]
    split
    · simp only [digitsVal, List.foldl_cons, List.foldl_nil]
      rw [Nat.zero_mul, Nat.zero_add, digitChar_val n (by omega)]
    · rename_i h10
      rw [digitsVal_append]
      have hdiv : n / 10 < 10 ^ fuel := by
        rw [Nat.div_lt_iff_lt_mul (by omega)]
        calc n < 10 ^ (fuel + 1) := hn
          _ = 10 ^ fuel * 10 := by rw [Nat.pow_succ]
      rw [ih (n / 10) hdiv]
      simp only [List.length_cons, List.length_nil, pow_one, digitsVal, List.foldl_cons,
        List.foldl_nil, Nat.zero_mul, Nat.zero_add]
      rw [digitChar_val (n % 10) (Nat.mod_lt n (by omega))]
      omega

theorem lt_ten_pow_succ_self (n : Nat) : n < 10 ^ (n + 1) := by
  calc n < 2 ^ n := Nat.lt_two_pow n
    _ ≤ 10 ^ n := Nat.pow_le_pow_left (by omega) n
    _ ≤ 10 ^ (n + 1) := Nat.pow_le_pow_right (by omega) (by omega)

theorem digitsVal_natToDigits (n : Nat) : digitsVal (natToDigits n) = n :=
  natToDigitsAux_val (n + 1) n (lt_ten_pow_succ_self n)

theorem natToDigitsAux_allDigits (fuel : Nat) : ∀ n : Nat,
    allDigits (natToDigitsAux fuel n) = true := by
  induction fuel with
  | zero => intro n; rfl
  | succ fuel ih =>
    intro n
    rw [natToDigitsAux]
    split
    · simp [allDigits, digitChar_isDigit]
    · simp only [allDigits, List.all_append] at *
      rw [ih (n / 10)]
      simp [digitChar_isDigit]

theorem allDigits_natToDigits (n : Nat) : allDigits (natToDigits n) = true :=
  natToDigitsAux_allDigits (n + 1) n

theorem natToDigitsAux_length_le (fuel : Nat) : ∀ n k : Nat, n < 10 ^ fuel →
    n < 10 ^ k → 1 ≤ k → (natToDigitsAux fuel n).length ≤ k := by
  induction fuel with
  | zero => intro n k _ _ _; simp [natToDigitsAux]
  | succ fuel ih =>
    intro n k hfuel hk h1
    rw [natToDigitsAux]
    split
    · simpa using h1
    · rename_i h10
      have hn10 : 10 ≤ n := by omega
      have hk2 : 2 ≤ k := by
        by_contra hcon
        have : k = 1 := by omega
        subst this
        simp only [pow_one] at hk
        omega
      have hdivfuel : n / 10 < 10 ^ fuel := by
        rw [Nat.div_lt_iff_lt_mul (by omega)]
        calc n < 10 ^ (fuel + 1) := hfuel
          _ = 10 ^ fuel * 10 := by rw [Nat.pow_succ]
      have hdivk : n / 10 < 10 ^ (k - 1) := by
        rw [Nat.div_lt_iff_lt_mul (by omega)]
        calc n < 10 ^ k := hk
          _ = 10 ^ (k - 1) * 10 := by
            rw [← Nat.pow_succ]
            congr 1
            omega
      have := ih (n / 10) (k - 1) hdivfuel hdivk (by omega)
      simp only [List.length_append, List.length_cons, List.length_nil]
      omega

theorem natToDigits_length_le (n k : Nat) (h : n < 10 ^ k) (hk : 1 ≤ k) :
    (natToDigits n).length ≤ k :=
  natToDigitsAux_length_le (n + 1) n k (lt_ten_pow_succ_self n) h hk

theorem natToDigits_ne_nil (n : Nat) : natToDigits n ≠ [] := by
  unfold natToDigits
  rw [natToDigitsAux]
  split <;> simp

theorem intRepr_ofNat (m : Nat) : intRepr (m : Int) = natToDigits m := by
  unfold intRepr
  rw [if_neg (by omega)]
  congr 1

/-! Lemmas about `pyInt`. -/

theorem dropWhile_eq_self_of_all (p : Char → Bool) (s : List Char)
    (h : ∀ c ∈ s, p c = false) : s.dropWhile p = s := by
  cases s with
  | nil => rfl
  | cons c cs =>
    rw [List.dropWhile_cons, h c (by simp)]
    simp

theorem digit_not_space {c : Char} (h : isDigitChar c = true) : (c == ' ') = false := by
  rcases hbe : c == ' ' with _ | _
  · rfl
  · exfalso
    have hc : c = ' ' := eq_of_beq hbe
    subst hc
    simp [isDigitChar] at h

theorem digit_not_minus {c : Char} (h : isDigitChar c = true) : (c == '-') = false := by
  rcases hbe : c == '-' with _ | _
  · rfl
  · exfalso
    have hc : c = '-' := eq_of_beq hbe
    subst hc
    simp [isDigitChar] at h

theorem digit_not_plus {c : Char} (h : isDigitChar c = true) : (c == '+') = false := by
  rcases hbe : c == '+' with _ | _
  · rfl
  · exfalso
    have hc : c = '+' := eq_of_beq hbe
    subst hc
    simp [isDigitChar] at h

theorem pyStrip_eq_self (s : List Char) (h : ∀ c ∈ s, (c == ' ') = false) :
    pyStrip s = s := by
  unfold pyStrip
  rw [dropWhile_eq_self_of_all _ _ h,
      dropWhile_eq_self_of_all _ _ (by intro c hc; exact h c (List.mem_reverse.mp hc)),
      List.reverse_reverse]

theorem pyInt_allDigits (s : List Char) (hne : s ≠ []) (hd : allDigits s = true) :
    pyInt s = some ((digitsVal s : Nat) : Int) := by
  have hall : ∀ c ∈ s, isDigitChar c = true := by
    intro c hc
    exact List.all_eq_true.mp hd c hc
  have hstrip : pyStrip s = s :=
    pyStrip_eq_self s (fun c hc => digit_not_space (hall c hc))
  obtain ⟨c, cs, rfl⟩ := List.exists_cons_of_ne_nil hne
  have hc := hall c (by simp)
  simp only [pyInt, hstrip, digit_not_minus hc, digit_not_plus hc, hd,
    Bool.false_eq_true, if_false, if_true]

theorem pyInt_zeroPad (k n : Nat) :
    pyInt (List.replicate k '0' ++ natToDigits n) = some ((n : Nat) : Int) := by
  have hall : allDigits (List.replicate k '0' ++ natToDigits n) = true := by
    simp only [allDigits, List.all_append, Bool.and_eq_true]
    constructor
    · simp only [List.all_eq_true]
      intro c hc
      rw [List.eq_of_mem_replicate hc]
      rfl
    · exact allDigits_natToDigits n
  have hne : List.replicate k '0' ++ natToDigits n ≠ [] := by
    simp [natToDigits_ne_nil n]
  rw [pyInt_allDigits _ hne hall, digitsVal_append, digitsVal_replicate_zero,
      digitsVal_natToDigits]
  simp

/-! Record-level lemmas: what a single typed field write does. -/

theorem setValue_typed (r : NachaRecord) (fieldName : String) (f : NachaField) (t : Nat)
    (v : List Char) (hl : r.locked = false) (hf : findField r.fields fieldName = some f)
    (ht : f.type = some t) :
    NachaRecord.setValue r fieldName v
      = .ok { r with data := pySliceSet r.data f.start f.stop ((padApply t v (f.stop - f.start)).take (f.stop - f.start)) } := by
  simp only [NachaRecord.setValue, hl, hf, ht, Bool.false_eq_true, if_false]

theorem getValue_eq (r : NachaRecord) (fieldName : String) (nm : String) (a b : Nat)
    (ty : Option Nat) (hf : findField r.fields fieldName = some ⟨nm, a, b, ty⟩) :
    r.getValue fieldName = .ok (pySlice r.data a b) := by
  simp only [NachaRecord.getValue, hf]

/-- One typed write on a well-bounded record: success, the preserved record
shape, the written slice, and the frame on every disjoint range. -/
theorem typedWrite (r : NachaRecord) (fieldName : String) (nm : String) (a b t : Nat)
    (v : List Char) (hl : r.locked = false)
    (hf : findField r.fields fieldName = some ⟨nm, a, b, some t⟩)
    (hse : a ≤ b) (hen : b ≤ r.data.length) :
    ∃ r1, NachaRecord.setValue r fieldName v = .ok r1
      ∧ r1.fields = r.fields ∧ r1.locked = false ∧ r1.data.length = r.data.length
      ∧ pySlice r1.data a b = (padApply t v (b - a)).take (b - a)
      ∧ ∀ s2 e2 : Nat, (b ≤ s2 ∨ e2 ≤ a) →
          pySlice r1.data s2 e2 = pySlice r.data s2 e2 := by
  have hvlen : ((padApply t v (b - a)).take (b - a)).length = b - a :=
    padApply_take_length t v (b - a)
  refine ⟨_, setValue_typed r fieldName ⟨nm, a, b, some t⟩ t v hl hf rfl, rfl, hl, ?_, ?_, ?_⟩
  · exact pySliceSet_length _ _ _ _ hse hen hvlen
  · exact pySlice_pySliceSet_self _ _ _ _ hse hen hvlen
  · intro s2 e2 h2
    rcases h2 with h2 | h2
    · exact pySlice_pySliceSet_right _ _ _ _ _ _ hse hen hvlen h2
    · exact pySlice_pySliceSet_left _ _ _ _ _ _ hse hen hvlen h2

/-- The value a numeric write leaves in its range, when the digits fit. -/
theorem numericValue_take (m w : Nat) (h : (natToDigits m).length ≤ w) :
    (padApply 0 (natToDigits m) w).take w
      = List.replicate (w - (natToDigits m).length) '0' ++ natToDigits m := by
  simp only [padApply]
  rw [pyRjust_eq_of_le _ _ _ h]
  apply List.take_of_length_le
  simp only [List.length_append, List.length_replicate]
  omega

theorem pyInt_numericValue (m w : Nat) (h : (natToDigits m).length ≤ w) :
    pyInt ((padApply 0 (natToDigits m) w).take w) = some ((m : Nat) : Int) := by
  rw [numericValue_take m w h, pyInt_zeroPad]

/-! Helper lemmas for the compound-operation chains. -/

theorem andThen_ok {α : Type} (a : α) (k : α → α × Option String) :
    andThen (a, none) k = k a := rfl

theorem controlSetValue_ok (b : NachaBatch) (n : String) (v : List Char) (c : NachaRecord)
    (h : b.batchControl.setValue n v = .ok c) :
    b.controlSetValue n v = ({ b with batchControl := c }, none) := by
  simp only [NachaBatch.controlSetValue, h]

theorem headerSetValue_ok (b : NachaBatch) (n : String) (v : List Char) (h1 : NachaRecord)
    (h : b.batchHeader.setValue n v = .ok h1) :
    b.headerSetValue n v = ({ b with batchHeader := h1 }, none) := by
  simp only [NachaBatch.headerSetValue, h]

theorem fileControlSetValue_ok (f : NachaFile) (n : String) (v : List Char) (c : NachaRecord)
    (h : f.fileControl.setValue n v = .ok c) :
    f.controlSetValue n v = ({ f with fileControl := c }, none) := by
  simp only [NachaFile.controlSetValue, h]

/-! The entry-totals loop of `NachaBatch.finalize`. -/

theorem entryTotalsLoop_spec (serviceCode : List Char) (entries : List NachaRecord)
    (ras : List (Nat × Nat))
    (h : List.Forall₂ (fun e ra => pyIntField e "rdfiId" = some ((ra.1 : Nat) : Int)
            ∧ pyIntField e "amount" = some ((ra.2 : Nat) : Int)) entries ras) :
    ∀ eh d c : Int, entryTotalsLoop serviceCode entries eh d c
      = some (eh + ((ras.map Prod.fst).sum : Nat),
              d + (if (serviceCode == NachaBatchHeader.DEBITS_ONLY_SERVICE
                       || serviceCode == NachaBatchHeader.MIXED_SERVICE) = true
                   then (((ras.map Prod.snd).sum : Nat) : Int) else 0),
              c + (if (serviceCode == NachaBatchHeader.CREDITS_ONLY_SERVICE
                       || serviceCode == NachaBatchHeader.MIXED_SERVICE) = true
                   then (((ras.map Prod.snd).sum : Nat) : Int) else 0)) := by
  induction h with
  | nil =>
    intro eh d c
    simp only [entryTotalsLoop, List.map_nil, List.sum_nil, Nat.cast_zero, add_zero]
    split <;> split <;> simp
  | @cons e ra es ras hpair hrest ih =>
    intro eh d c
    obtain ⟨h1, h2⟩ := hpair
    by_cases hdb : (serviceCode == NachaBatchHeader.DEBITS_ONLY_SERVICE
        || serviceCode == NachaBatchHeader.MIXED_SERVICE) = true <;>
      by_cases hcr : (serviceCode == NachaBatchHeader.CREDITS_ONLY_SERVICE
        || serviceCode == NachaBatchHeader.MIXED_SERVICE) = true <;>
      simp only [entryTotalsLoop, h1, h2, hdb, hcr, Option.map_some', if_true, if_false,
        ih, List.map_cons, List.sum_cons, Option.some.injEq, Prod.mk.injEq,
        Bool.false_eq_true, reduceIte] <;>
      first
        | trivial
        | (push_cast; and_intros <;> ring)

/-! The batch-totals loop of `NachaFile.finalize`. -/

theorem batchTotalsLoop_spec (batches : List NachaBatch) (qs : List (Nat × Nat × Nat × Nat))
    (h : List.Forall₂ (fun bt q =>
        pyIntField bt.batchControl "entryCount" = some ((q.1 : Nat) : Int)
        ∧ pyIntField bt.batchControl "entryHash" = some ((q.2.1 : Nat) : Int)
        ∧ pyIntField bt.batchControl "debitAmount" = some ((q.2.2.1 : Nat) : Int)
        ∧ pyIntField bt.batchControl "creditAmount" = some ((q.2.2.2 : Nat) : Int))
      batches qs) :
    ∀ ec eh d c : Int, batchTotalsLoop batches ec eh d c
      = some (ec + ((qs.map (fun q => q.1)).sum : Nat),
              eh + ((qs.map (fun q => q.2.1)).sum : Nat),
              d + ((qs.map (fun q => q.2.2.1)).sum : Nat),
              c + ((qs.map (fun q => q.2.2.2)).sum : Nat)) := by
  induction h with
  | nil =>
    intro ec eh d c
    simp [batchTotalsLoop]
  | @cons bt q bts qs hpair hrest ih =>
    intro ec eh d c
    obtain ⟨h1, h2, h3, h4⟩ := hpair
    simp only [batchTotalsLoop, h1, h2, h3, h4, ih, List.map_cons, List.sum_cons,
      Option.some.injEq, Prod.mk.injEq]
    push_cast
    and_intros <;> ring

/-! Ceiling division: the code's `floor + (1 if mod ≠ 0)` equals
`(rc + bf - 1) / bf`. -/

theorem ceilDiv_eq (rc bf : Nat) (h : 0 < bf) :
    rc / bf + (if rc % bf = 0 then 0 else 1) = (rc + bf - 1) / bf := by
  obtain ⟨q, r, hr, hrc⟩ : ∃ q r, r < bf ∧ rc = bf * q + r :=
    ⟨rc / bf, rc % bf, Nat.mod_lt rc h, by rw [Nat.div_add_mod]⟩
  subst hrc
  rw [Nat.mul_add_div h, Nat.mul_add_mod, Nat.div_eq_of_lt hr, Nat.mod_eq_of_lt hr]
  by_cases hr0 : r = 0
  · subst hr0
    rw [if_pos rfl]
    rcases Nat.eq_zero_or_pos q with hq | hq
    · subst hq
      simp only [Nat.mul_zero, Nat.zero_add, Nat.add_zero]
      rw [Nat.div_eq_of_lt (by omega)]
    · have heq : bf * q + 0 + bf - 1 = bf * q + (bf - 1) := by omega
      rw [heq, Nat.mul_add_div h, Nat.div_eq_of_lt (show bf - 1 < bf by omega)]
  · rw [if_neg hr0]
    have heq : bf * q + r + bf - 1 = bf * (q + 1) + (r - 1) := by
      rw [Nat.mul_add, Nat.mul_one]
      omega
    rw [heq, Nat.mul_add_div h, Nat.div_eq_of_lt (show r - 1 < bf by omega)]

/-! `Int.fdiv` / `Int.emod` on natural operands (Python floor division and
modulo agree with them when the divisor is positive). -/

theorem fdiv_natCast (m n : Nat) (hn : 0 < n) :
    Int.fdiv (m : Int) (n : Int) = ((m / n : Nat) : Int) := by
  rw [Int.fdiv_eq_ediv _ (by positivity), ← Int.natCast_div]

theorem emod_natCast (m n : Nat) : Int.emod (m : Int) (n : Int) = ((m % n : Nat) : Int) := by
  rw [Int.natCast_mod]
  rfl

/-! Small helpers used by the finalize proofs. -/

theorem lock_fields (r : NachaRecord) : r.lock.fields = r.fields := rfl

theorem lock_data (r : NachaRecord) : r.lock.data = r.data := rfl

theorem lock_locked (r : NachaRecord) : r.lock.locked = true := rfl

theorem pyIntField_eq (r : NachaRecord) (n : String) (nm : String) (a b : Nat)
    (ty : Option Nat) (hf : findField r.fields n = some ⟨nm, a, b, ty⟩) :
    pyIntField r n = pyInt (pySlice r.data a b) := by
  simp only [pyIntField, pyIntOfExcept, getValue_eq r n nm a b ty hf]

theorem natCast_ite (p : Prop) [Decidable p] (a b : Nat) :
    ((if p then a else b : Nat) : Int) = if p then (a : Int) else (b : Int) := by
  split <;> rfl

/-- C4: for every batch with entries whose routing ids are `r_i` and amounts
`a_i` and whose service-class code is `s`, the first call to
`finalize(batchNumber)` writes into BatchControl: `entryCount = N`,
`entryHash = (Σ r_i) mod 10^10`, `debitAmount = Σ a_i` if `s` is `"225"` or
`"200"` else `0`, and `creditAmount = Σ a_i` if `s` is `"220"` or `"200"`
else `0` — for a mixed (`"200"`) batch every amount lands in both totals. -/
theorem claim_C4 (hdr ctl : NachaRecord) (entries : List NachaRecord)
    (ras : List (Nat × Nat)) (s : List Char) (batchNumber : Nat)
    (hhf : hdr.fields = batchHeaderFields) (hhl : hdr.locked = false)
    (hhd : hdr.data.length = 94)
    (hcf : ctl.fields = batchControlFields) (hcl : ctl.locked = false)
    (hcd : ctl.data.length = 94)
    (hs : hdr.getValue "serviceCode" = .ok s)
    (hent : List.Forall₂ (fun e ra => pyIntField e "rdfiId" = some ((ra.1 : Nat) : Int)
              ∧ pyIntField e "amount" = some ((ra.2 : Nat) : Int)) entries ras)
    (hN : entries.length < 10 ^ 6)
    (hA : (ras.map Prod.snd).sum < 10 ^ 12) :
    ∃ b1, NachaBatch.finalize ⟨false, entries, hdr, ctl⟩ batchNumber = (b1, none)
      ∧ b1.finalized = true
      ∧ b1.entries = entries
      ∧ pyIntField b1.batchControl "entryCount" = some ((entries.length : Nat) : Int)
      ∧ pyIntField b1.batchControl "entryHash"
          = some (((ras.map Prod.fst).sum % 10 ^ 10 : Nat) : Int)
      ∧ pyIntField b1.batchControl "debitAmount"
          = some (((if s = NachaBatchHeader.DEBITS_ONLY_SERVICE
                      ∨ s = NachaBatchHeader.MIXED_SERVICE
                    then (ras.map Prod.snd).sum else 0 : Nat) : Int))
      ∧ pyIntField b1.batchControl "creditAmount"
          = some (((if s = NachaBatchHeader.CREDITS_ONLY_SERVICE
                      ∨ s = NachaBatchHeader.MIXED_SERVICE
                    then (ras.map Prod.snd).sum else 0 : Nat) : Int)) := by
  -- abbreviations for the sums and the two service-class gates
  set R : Nat := (ras.map Prod.fst).sum with hR
  set A : Nat := (ras.map Prod.snd).sum with hA2
  -- the five writes, one `typedWrite` instance each
  obtain ⟨hdr1, hsetBNh, hf1, hl1, hlen1, hreadBNh, hframeBNh⟩ :=
    typedWrite hdr "batchNumber" "Batch Number" 87 94 0
      (natToDigits batchNumber) hhl (by rw [hhf]; rfl) (by omega) (by rw [hhd])
  obtain ⟨ctl1, hsetBNc, hcf1, hcl1, hclen1, hreadBNc, hframeBNc⟩ :=
    typedWrite ctl "batchNumber" "Batch Number" 87 94 0
      (natToDigits batchNumber) hcl (by rw [hcf]; rfl) (by omega) (by rw [hcd])
  obtain ⟨ctl2, hsetEC, hcf2, hcl2, hclen2, hreadEC, hframeEC⟩ :=
    typedWrite ctl1 "entryCount" "Entry/Addenda Count" 4 10 0
      (natToDigits entries.length) hcl1 (by rw [hcf1, hcf]; rfl) (by omega)
      (by rw [hclen1, hcd]; omega)
  -- the service code still reads back unchanged after the batch-number write
  have hsOld : pySlice hdr.data 1 4 = s := by
    have h := getValue_eq hdr "serviceCode" "Service Class Code" 1 4 (some 0)
      (by rw [hhf]; rfl)
    rw [h] at hs
    exact Except.ok.inj hs
  have hserv1 : hdr1.getValue "serviceCode" = .ok s := by
    rw [getValue_eq hdr1 "serviceCode" "Service Class Code" 1 4 (some 0)
        (by rw [hf1, hhf]; rfl),
      hframeBNh 1 4 (Or.inr (by omega)), hsOld]
  -- the accumulation loop
  have hloop := entryTotalsLoop_spec s entries ras hent 0 0 0
  simp only [zero_add] at hloop
  -- the three total writes
  have h1010 : (10000000000 : Int) = ((10 ^ 10 : Nat) : Int) := by norm_num
  have hemod : Int.emod ((R : Nat) : Int) 10000000000 = ((R % 10 ^ 10 : Nat) : Int) := by
    rw [h1010, emod_natCast]
  obtain ⟨ctl3, hsetEH, hcf3, hcl3, hclen3, hreadEH, hframeEH⟩ :=
    typedWrite ctl2 "entryHash" "Entry Hash" 10 20 0
      (natToDigits (R % 10 ^ 10)) hcl2 (by rw [hcf2, hcf1, hcf]; rfl) (by omega)
      (by rw [hclen2, hclen1, hcd]; omega)
  have hCcast : (if (s == NachaBatchHeader.CREDITS_ONLY_SERVICE
        || s == NachaBatchHeader.MIXED_SERVICE) = true then ((A : Nat) : Int) else 0)
      = (((if (s == NachaBatchHeader.CREDITS_ONLY_SERVICE
            || s == NachaBatchHeader.MIXED_SERVICE) = true then A else 0 : Nat)) : Int) := by
    split <;> simp
  have hDcast : (if (s == NachaBatchHeader.DEBITS_ONLY_SERVICE
        || s == NachaBatchHeader.MIXED_SERVICE) = true then ((A : Nat) : Int) else 0)
      = (((if (s == NachaBatchHeader.DEBITS_ONLY_SERVICE
            || s == NachaBatchHeader.MIXED_SERVICE) = true then A else 0 : Nat)) : Int) := by
    split <;> simp
  obtain ⟨ctl4, hsetCA, hcf4, hcl4, hclen4, hreadCA, hframeCA⟩ :=
    typedWrite ctl3 "creditAmount" "Total Credit Entry Dollar Amount" 32 44 0
      (natToDigits (if (s == NachaBatchHeader.CREDITS_ONLY_SERVICE
        || s == NachaBatchHeader.MIXED_SERVICE) = true then A else 0)) hcl3
      (by rw [hcf3, hcf2, hcf1, hcf]; rfl) (by omega)
      (by rw [hclen3, hclen2, hclen1, hcd]; omega)
  obtain ⟨ctl5, hsetDA, hcf5, hcl5, hclen5, hreadDA, hframeDA⟩ :=
    typedWrite ctl4 "debitAmount" "Total Debit Entry Dollar Amount" 20 32 0
      (natToDigits (if (s == NachaBatchHeader.DEBITS_ONLY_SERVICE
        || s == NachaBatchHeader.MIXED_SERVICE) = true then A else 0)) hcl4
      (by rw [hcf4, hcf3, hcf2, hcf1, hcf]; rfl) (by omega)
      (by rw [hclen4, hclen3, hclen2, hclen1, hcd]; omega)
  -- assemble the run of `finalize`
  have hfin : NachaBatch.finalize ⟨false, entries, hdr, ctl⟩ batchNumber
      = (⟨true, entries, hdr1.lock, ctl5.lock⟩, none) := by
    simp only [NachaBatch.finalize, NachaBatch.setDualField, NachaBatch.headerSetValue,
      NachaBatch.controlSetValue, andThen, hsetBNh, hsetBNc, hsetEC, hserv1, hloop,
      hemod, hCcast, hDcast, intRepr_ofNat, hsetEH, hsetCA, hsetDA,
      Bool.false_eq_true, if_false]
  refine ⟨⟨true, entries, hdr1.lock, ctl5.lock⟩, hfin, rfl, rfl, ?_, ?_, ?_, ?_⟩
  · -- entryCount
    rw [pyIntField_eq _ "entryCount" "Entry/Addenda Count" 4 10 (some 0)
        (by rw [lock_fields, hcf5, hcf4, hcf3, hcf2, hcf1, hcf]; rfl),
      lock_data, hframeDA 4 10 (Or.inr (by omega)), hframeCA 4 10 (Or.inr (by omega)),
      hframeEH 4 10 (Or.inr (by omega)), hreadEC]
    exact pyInt_numericValue entries.length 6 (natToDigits_length_le _ 6 hN (by omega))
  · -- entryHash
    rw [pyIntField_eq _ "entryHash" "Entry Hash" 10 20 (some 0)
        (by rw [lock_fields, hcf5, hcf4, hcf3, hcf2, hcf1, hcf]; rfl),
      lock_data, hframeDA 10 20 (Or.inr (by omega)), hframeCA 10 20 (Or.inr (by omega)),
      hreadEH]
    exact pyInt_numericValue (R % 10 ^ 10) 10
      (natToDigits_length_le _ 10 (Nat.mod_lt _ (by positivity)) (by omega))
  · -- debitAmount
    rw [pyIntField_eq _ "debitAmount" "Total Debit Entry Dollar Amount" 20 32 (some 0)
        (by rw [lock_fields, hcf5, hcf4, hcf3, hcf2, hcf1, hcf]; rfl),
      lock_data, hreadDA]
    simp only [Bool.or_eq_true, beq_iff_eq]
    exact pyInt_numericValue _ 12 (natToDigits_length_le _ 12
      (by split <;> first | exact hA | positivity) (by omega))
  · -- creditAmount
    rw [pyIntField_eq _ "creditAmount" "Total Credit Entry Dollar Amount" 32 44 (some 0)
        (by rw [lock_fields, hcf5, hcf4, hcf3, hcf2, hcf1, hcf]; rfl),
      lock_data, hframeDA 32 44 (Or.inl (by omega)), hreadCA]
    simp only [Bool.or_eq_true, beq_iff_eq]
    exact pyInt_numericValue _ 12 (natToDigits_length_le _ 12
      (by split <;> first | exact hA | positivity) (by omega))

/-- C3: for every file with `B` finalized batches totalling `E` entries, the
first call to `finalize()` writes into FileControl `batchCount = B`,
`entryCount = E`, `entryHash = (Σ batch hashes) mod 10^10`, `debitAmount` /
`creditAmount` = the sums of the batches' control totals, and `blockCount =
ceil(recordCount / blockingFactor)` with `recordCount = 2 + 2B + E`; when
`recordCount mod blockingFactor ≠ 0`, exactly `blockingFactor − recordCount
mod blockingFactor` filler lines of 94 `'9'`s are generated. -/
theorem claim_C3 (f : NachaFile) (qs : List (Nat × Nat × Nat × Nat)) (bf : Nat)
    (hfin0 : f.finalized = false)
    (hcf : f.fileControl.fields = fileControlFields)
    (hcl : f.fileControl.locked = false)
    (hcd : f.fileControl.data.length = 94)
    (hbf : pyIntField f.fileHeader "blockingFactor" = some ((bf : Nat) : Int))
    (hbf0 : 0 < bf)
    (hq : List.Forall₂ (fun bt q =>
        bt.finalized = true
        ∧ q.1 = bt.entries.length
        ∧ pyIntField bt.batchControl "entryCount" = some ((q.1 : Nat) : Int)
        ∧ pyIntField bt.batchControl "entryHash" = some ((q.2.1 : Nat) : Int)
        ∧ pyIntField bt.batchControl "debitAmount" = some ((q.2.2.1 : Nat) : Int)
        ∧ pyIntField bt.batchControl "creditAmount" = some ((q.2.2.2 : Nat) : Int))
      f.batches qs)
    (hB : f.batches.length < 10 ^ 6)
    (hE : (qs.map (fun q => q.1)).sum < 10 ^ 8)
    (hD : (qs.map (fun q => q.2.2.1)).sum < 10 ^ 12)
    (hC : (qs.map (fun q => q.2.2.2)).sum < 10 ^ 12)
    (hBC : (2 + f.batches.length * 2 + (qs.map (fun q => q.1)).sum + bf - 1) / bf < 10 ^ 6) :
    ∃ f1, NachaFile.finalize f = (f1, none)
      ∧ f1.finalized = true
      ∧ f1.batches = f.batches
      ∧ pyIntField f1.fileControl "batchCount" = some ((f.batches.length : Nat) : Int)
      ∧ pyIntField f1.fileControl "entryCount" = some (((qs.map (fun q => q.1)).sum : Nat) : Int)
      ∧ pyIntField f1.fileControl "entryHash"
          = some (((qs.map (fun q => q.2.1)).sum % 10 ^ 10 : Nat) : Int)
      ∧ pyIntField f1.fileControl "debitAmount"
          = some (((qs.map (fun q => q.2.2.1)).sum : Nat) : Int)
      ∧ pyIntField f1.fileControl "creditAmount"
          = some (((qs.map (fun q => q.2.2.2)).sum : Nat) : Int)
      ∧ pyIntField f1.fileControl "blockCount"
          = some (((2 + f.batches.length * 2 + (qs.map (fun q => q.1)).sum + bf - 1) / bf
              : Nat) : Int)
      ∧ ((2 + f.batches.length * 2 + (qs.map (fun q => q.1)).sum) % bf ≠ 0 →
          f1.nineFill = crlfJoin (List.replicate
            (bf - (2 + f.batches.length * 2 + (qs.map (fun q => q.1)).sum) % bf)
            (List.replicate 94 '9')))
      ∧ ((2 + f.batches.length * 2 + (qs.map (fun q => q.1)).sum) % bf = 0 →
          f1.nineFill = f.nineFill) := by
  set B : Nat := f.batches.length with hBdef
  set E : Nat := (qs.map (fun q => q.1)).sum with hEdef
  set H : Nat := (qs.map (fun q => q.2.1)).sum with hHdef
  set D : Nat := (qs.map (fun q => q.2.2.1)).sum with hDdef
  set C : Nat := (qs.map (fun q => q.2.2.2)).sum with hCdef
  set rcN : Nat := 2 + B * 2 + E with hrcdef
  -- the six control writes
  obtain ⟨fc1, hsetBC, hcf1, hcl1, hclen1, hreadBCw, hframeBCw⟩ :=
    typedWrite f.fileControl "batchCount" "Batch Count" 1 7 0
      (natToDigits B) hcl (by rw [hcf]; rfl) (by omega) (by rw [hcd]; omega)
  obtain ⟨fc2, hsetEC, hcf2, hcl2, hclen2, hreadEC, hframeEC⟩ :=
    typedWrite fc1 "entryCount" "Entry Count" 13 21 0
      (natToDigits E) hcl1 (by rw [hcf1, hcf]; rfl) (by omega)
      (by rw [hclen1, hcd]; omega)
  obtain ⟨fc3, hsetEH, hcf3, hcl3, hclen3, hreadEH, hframeEH⟩ :=
    typedWrite fc2 "entryHash" "Entry Hash" 21 31 0
      (natToDigits (H % 10 ^ 10)) hcl2 (by rw [hcf2, hcf1, hcf]; rfl) (by omega)
      (by rw [hclen2, hclen1, hcd]; omega)
  obtain ⟨fc4, hsetDA, hcf4, hcl4, hclen4, hreadDA, hframeDA⟩ :=
    typedWrite fc3 "debitAmount" "Total Debit Amount" 31 43 0
      (natToDigits D) hcl3 (by rw [hcf3, hcf2, hcf1, hcf]; rfl) (by omega)
      (by rw [hclen3, hclen2, hclen1, hcd]; omega)
  obtain ⟨fc5, hsetCA, hcf5, hcl5, hclen5, hreadCA, hframeCA⟩ :=
    typedWrite fc4 "creditAmount" "Total Credit Amount" 43 55 0
      (natToDigits C) hcl4 (by rw [hcf4, hcf3, hcf2, hcf1, hcf]; rfl) (by omega)
      (by rw [hclen4, hclen3, hclen2, hclen1, hcd]; omega)
  obtain ⟨fc6, hsetBK, hcf6, hcl6, hclen6, hreadBK, hframeBK⟩ :=
    typedWrite fc5 "blockCount" "Block Count" 7 13 0
      (natToDigits ((rcN + bf - 1) / bf)) hcl5
      (by rw [hcf5, hcf4, hcf3, hcf2, hcf1, hcf]; rfl) (by omega)
      (by rw [hclen5, hclen4, hclen3, hclen2, hclen1, hcd]; omega)
  -- the batch-totals loop
  have hq4 : List.Forall₂ (fun bt q =>
      pyIntField bt.batchControl "entryCount" = some ((q.1 : Nat) : Int)
      ∧ pyIntField bt.batchControl "entryHash" = some ((q.2.1 : Nat) : Int)
      ∧ pyIntField bt.batchControl "debitAmount" = some ((q.2.2.1 : Nat) : Int)
      ∧ pyIntField bt.batchControl "creditAmount" = some ((q.2.2.2 : Nat) : Int))
      f.batches qs :=
    List.Forall₂.imp (fun _ _ h => ⟨h.2.2.1, h.2.2.2.1, h.2.2.2.2.1, h.2.2.2.2.2⟩) hq
  have hloop := batchTotalsLoop_spec f.batches qs hq4 0 0 0 0
  simp only [zero_add] at hloop
  -- arithmetic bridges between the code's `Int` values and the `Nat` claim
  have h1010 : (10000000000 : Int) = ((10 ^ 10 : Nat) : Int) := by norm_num
  have hemod : Int.emod ((H : Nat) : Int) 10000000000 = ((H % 10 ^ 10 : Nat) : Int) := by
    rw [h1010, emod_natCast]
  have hbf' : pyIntOfExcept (f.fileHeader.getValue "blockingFactor") = some ((bf : Nat) : Int) :=
    hbf
  have hbfne : ¬(((bf : Nat) : Int) = 0) := by
    simp only [ne_eq, Nat.cast_eq_zero]
    omega
  have hRC : ((2 : Int) + (f.batches.length : Int) * 2
        + (((qs.map (fun q => q.1)).sum : Nat) : Int)) = ((rcN : Nat) : Int) := by
    rw [hrcdef, hBdef, hEdef]
    push_cast
    ring
  have hfdivN : Int.fdiv ((rcN : Nat) : Int) ((bf : Nat) : Int) = ((rcN / bf : Nat) : Int) :=
    fdiv_natCast rcN bf hbf0
  have hemodN : Int.emod ((rcN : Nat) : Int) ((bf : Nat) : Int) = ((rcN % bf : Nat) : Int) :=
    emod_natCast rcN bf
  have hceil := ceilDiv_eq rcN bf hbf0
  by_cases hmod : rcN % bf = 0
  · -- no filler lines: `nineFill` keeps its previous value
    rw [if_pos hmod] at hceil
    have hInt : ((rcN / bf : Nat) : Int) = (((rcN + bf - 1) / bf : Nat) : Int) := by
      rw [← hceil]
      push_cast
      ring
    have hfin : NachaFile.finalize f
        = (⟨true, f.batches, f.nineFill, f.fileHeader.lock, fc6.lock⟩, none) := by
      simp only [NachaFile.finalize, NachaFile.controlSetValue, andThen, hfin0,
        Bool.false_eq_true, if_false, hsetBC, hloop, intRepr_ofNat, hemod, hsetEC,
        hsetEH, hsetDA, hsetCA, hbf', hbfne, hRC, hfdivN, hemodN, hmod, hInt,
        Nat.cast_zero, ne_eq, not_true_eq_false, if_true, hsetBK, reduceIte]
    refine ⟨_, hfin, rfl, rfl, ?_, ?_, ?_, ?_, ?_, ?_, fun hcon => absurd hmod hcon,
      fun _ => rfl⟩
    · rw [pyIntField_eq _ "batchCount" "Batch Count" 1 7 (some 0)
          (by rw [lock_fields, hcf6, hcf5, hcf4, hcf3, hcf2, hcf1, hcf]; rfl),
        lock_data, hframeBK 1 7 (Or.inr (by omega)), hframeCA 1 7 (Or.inr (by omega)),
        hframeDA 1 7 (Or.inr (by omega)), hframeEH 1 7 (Or.inr (by omega)),
        hframeEC 1 7 (Or.inr (by omega)), hreadBCw]
      exact pyInt_numericValue B 6 (natToDigits_length_le _ 6 hB (by omega))
    · rw [pyIntField_eq _ "entryCount" "Entry Count" 13 21 (some 0)
          (by rw [lock_fields, hcf6, hcf5, hcf4, hcf3, hcf2, hcf1, hcf]; rfl),
        lock_data, hframeBK 13 21 (Or.inl (by omega)), hframeCA 13 21 (Or.inr (by omega)),
        hframeDA 13 21 (Or.inr (by omega)), hframeEH 13 21 (Or.inr (by omega)), hreadEC]
      exact pyInt_numericValue E 8 (natToDigits_length_le _ 8 (by omega) (by omega))
    · rw [pyIntField_eq _ "entryHash" "Entry Hash" 21 31 (some 0)
          (by rw [lock_fields, hcf6, hcf5, hcf4, hcf3, hcf2, hcf1, hcf]; rfl),
        lock_data, hframeBK 21 31 (Or.inl (by omega)), hframeCA 21 31 (Or.inr (by omega)),
        hframeDA 21 31 (Or.inr (by omega)), hreadEH]
      exact pyInt_numericValue (H % 10 ^ 10) 10
        (natToDigits_length_le _ 10 (Nat.mod_lt _ (by positivity)) (by omega))
    · rw [pyIntField_eq _ "debitAmount" "Total Debit Amount" 31 43 (some 0)
          (by rw [lock_fields, hcf6, hcf5, hcf4, hcf3, hcf2, hcf1, hcf]; rfl),
        lock_data, hframeBK 31 43 (Or.inl (by omega)), hframeCA 31 43 (Or.inr (by omega)),
        hreadDA]
      exact pyInt_numericValue D 12 (natToDigits_length_le _ 12 (by omega) (by omega))
    · rw [pyIntField_eq _ "creditAmount" "Total Credit Amount" 43 55 (some 0)
          (by rw [lock_fields, hcf6, hcf5, hcf4, hcf3, hcf2, hcf1, hcf]; rfl),
        lock_data, hframeBK 43 55 (Or.inl (by omega)), hreadCA]
      exact pyInt_numericValue C 12 (natToDigits_length_le _ 12 (by omega) (by omega))
    · rw [pyIntField_eq _ "blockCount" "Block Count" 7 13 (some 0)
          (by rw [lock_fields, hcf6, hcf5, hcf4, hcf3, hcf2, hcf1, hcf]; rfl),
        lock_data, hreadBK]
      exact pyInt_numericValue ((rcN + bf - 1) / bf) 6
        (natToDigits_length_le _ 6 hBC (by omega))
  · -- filler lines are generated
    rw [if_neg hmod] at hceil
    have htoNat : (((bf : Nat) : Int) - (((rcN % bf : Nat) : Int))).toNat = bf - rcN % bf := by
      omega
    have hplus : (((rcN / bf : Nat) : Int)) + 1 = (((rcN + bf - 1) / bf : Nat) : Int) := by
      rw [← hceil]
      push_cast
      ring
    have hfin : NachaFile.finalize f
        = (⟨true, f.batches,
            crlfJoin (List.replicate (bf - rcN % bf) (List.replicate 94 '9')),
            f.fileHeader.lock, fc6.lock⟩, none) := by
      simp only [NachaFile.finalize, NachaFile.controlSetValue, andThen, hfin0,
        Bool.false_eq_true, if_false, hsetBC, hloop, intRepr_ofNat, hemod, hsetEC,
        hsetEH, hsetDA, hsetCA, hbf', hbfne, hRC, hfdivN, hemodN, ne_eq,
        Nat.cast_eq_zero, hmod, not_false_eq_true, if_true, htoNat, hplus, hsetBK,
        reduceIte]
    refine ⟨_, hfin, rfl, rfl, ?_, ?_, ?_, ?_, ?_, ?_, fun _ => rfl,
      fun hcon => absurd hcon hmod⟩
    · rw [pyIntField_eq _ "batchCount" "Batch Count" 1 7 (some 0)
          (by rw [lock_fields, hcf6, hcf5, hcf4, hcf3, hcf2, hcf1, hcf]; rfl),
        lock_data, hframeBK 1 7 (Or.inr (by omega)), hframeCA 1 7 (Or.inr (by omega)),
        hframeDA 1 7 (Or.inr (by omega)), hframeEH 1 7 (Or.inr (by omega)),
        hframeEC 1 7 (Or.inr (by omega)), hreadBCw]
      exact pyInt_numericValue B 6 (natToDigits_length_le _ 6 hB (by omega))
    · rw [pyIntField_eq _ "entryCount" "Entry Count" 13 21 (some 0)
          (by rw [lock_fields, hcf6, hcf5, hcf4, hcf3, hcf2, hcf1, hcf]; rfl),
        lock_data, hframeBK 13 21 (Or.inl (by omega)), hframeCA 13 21 (Or.inr (by omega)),
        hframeDA 13 21 (Or.inr (by omega)), hframeEH 13 21 (Or.inr (by omega)), hreadEC]
      exact pyInt_numericValue E 8 (natToDigits_length_le _ 8 (by omega) (by omega))
    · rw [pyIntField_eq _ "entryHash" "Entry Hash" 21 31 (some 0)
          (by rw [lock_fields, hcf6, hcf5, hcf4, hcf3, hcf2, hcf1, hcf]; rfl),
        lock_data, hframeBK 21 31 (Or.inl (by omega)), hframeCA 21 31 (Or.inr (by omega)),
        hframeDA 21 31 (Or.inr (by omega)), hreadEH]
      exact pyInt_numericValue (H % 10 ^ 10) 10
        (natToDigits_length_le _ 10 (Nat.mod_lt _ (by positivity)) (by omega))
    · rw [pyIntField_eq _ "debitAmount" "Total Debit Amount" 31 43 (some 0)
          (by rw [lock_fields, hcf6, hcf5, hcf4, hcf3, hcf2, hcf1, hcf]; rfl),
        lock_data, hframeBK 31 43 (Or.inl (by omega)), hframeCA 31 43 (Or.inr (by omega)),
        hreadDA]
      exact pyInt_numericValue D 12 (natToDigits_length_le _ 12 (by omega) (by omega))
    · rw [pyIntField_eq _ "creditAmount" "Total Credit Amount" 43 55 (some 0)
          (by rw [lock_fields, hcf6, hcf5, hcf4, hcf3, hcf2, hcf1, hcf]; rfl),
        lock_data, hframeBK 43 55 (Or.inl (by omega)), hreadCA]
      exact pyInt_numericValue C 12 (natToDigits_length_le _ 12 (by omega) (by omega))
    · rw [pyIntField_eq _ "blockCount" "Block Count" 7 13 (some 0)
          (by rw [lock_fields, hcf6, hcf5, hcf4, hcf3, hcf2, hcf1, hcf]; rfl),
        lock_data, hreadBK]
      exact pyInt_numericValue ((rcN + bf - 1) / bf) 6
        (natToDigits_length_le _ 6 hBC (by omega))

/-! Padding shapes of the three typed kinds (for fitting values). -/

theorem padApply_numeric_full (v : List Char) (w : Nat) (hv : v.length ≤ w) :
    (padApply 0 v w).take w = List.replicate (w - v.length) '0' ++ v := by
  simp only [padApply]
  rw [pyRjust_eq_of_le _ _ _ hv]
  apply List.take_of_length_le
  simp only [List.length_append, List.length_replicate]
  omega

theorem padApply_alpha_full (v : List Char) (w : Nat) (hv : v.length ≤ w) :
    (padApply 1 v w).take w = v ++ List.replicate (w - v.length) ' ' := by
  simp only [padApply]
  rw [pyLjust_eq_of_le _ _ _ hv]
  apply List.take_of_length_le
  simp only [List.length_append, List.length_replicate]
  omega

theorem padApply_routing_full (v : List Char) (w : Nat) (hv : v.length ≤ w) :
    (padApply 2 v w).take w = List.replicate (w - v.length) ' ' ++ v := by
  simp only [padApply]
  rw [pyRjust_eq_of_le _ _ _ hv]
  apply List.take_of_length_le
  simp only [List.length_append, List.length_replicate]
  omega

/-- C7: on every unlocked record, a write to a typed field applies the
field kind's padding policy to the value before writing: a Numeric field is
right-justified and left-filled with `'0'` to the range width, an
Alphameric field is left-justified and right-filled with spaces, and a
Routing field is right-justified and left-filled with spaces (not zeros). -/
theorem claim_C7 (r : NachaRecord) (fieldName : String) (nm : String) (a b t : Nat)
    (v : List Char) (hl : r.locked = false)
    (hf : findField r.fields fieldName = some ⟨nm, a, b, some t⟩)
    (hse : a ≤ b) (hen : b ≤ r.data.length) (hv : v.length ≤ b - a) :
    ∃ r1, NachaRecord.setValue r fieldName v = .ok r1
      ∧ r1.data.length = r.data.length
      ∧ (t = NUMERIC → r1.getValue fieldName
            = .ok (List.replicate (b - a - v.length) '0' ++ v))
      ∧ (t = ALPHAMERIC → r1.getValue fieldName
            = .ok (v ++ List.replicate (b - a - v.length) ' '))
      ∧ (t = ROUTING → r1.getValue fieldName
            = .ok (List.replicate (b - a - v.length) ' ' ++ v)) := by
  obtain ⟨r1, hset, hfld, hlck, hlen, hread, hframe⟩ :=
    typedWrite r fieldName nm a b t v hl hf hse hen
  refine ⟨r1, hset, hlen, ?_, ?_, ?_⟩ <;> intro ht <;> subst ht <;>
    rw [getValue_eq r1 fieldName nm a b (some _) (by rw [hfld]; exact hf), hread] <;>
    simp only [NUMERIC, ALPHAMERIC, ROUTING]
  · rw [padApply_numeric_full v (b - a) hv]
  · rw [padApply_alpha_full v (b - a) hv]
  · rw [padApply_routing_full v (b - a) hv]

/-! Concrete values used by the witnesses and counterexamples.  They are
built through the model's own constructors and operations. -/

def fileHeaderCex : NachaRecord :=
  (NachaFileHeader.init "A".toList "260212".toList "1200".toList).1

def fileControlCex : NachaRecord := (NachaFileControl.init).1

def entryCex : NachaRecord × Option String :=
  NachaEntry.init "22".toList "07640125".toList "9837412".toList "5000".toList
    "ID74".toList "JOHN DOE".toList

def entryZeroCex : NachaRecord × Option String :=
  NachaEntry.init "22".toList "00000000".toList "9837412".toList "5000".toList
    "ID74".toList "JOHN DOE".toList

def batchCex : NachaBatch × Option String :=
  NachaBatch.init "200".toList "PPD".toList "ACME CO".toList "PAYROLL".toList
    "1234567890".toList "07640125".toList "Feb 26".toList "260213".toList

def fileCex : NachaFile × Option String :=
  NachaFile.init "A".toList "  07640125".toList "DEST BANK".toList " 123456789".toList
    "ORIG CO".toList "260212".toList "1200".toList

/-- A batch holding one entry (the usual `addEntry` flow). -/
def batchOneCex : NachaBatch × NachaRecord × Option String :=
  NachaBatch.addEntry batchCex.1 entryCex.1

/-- C7 witness: the three padding policies observed on concrete fields of
the real layouts (`"5"` in the 6-wide numeric batch count, `"AB"` in the
8-wide alphameric reference code, `"123"` in the 10-wide routing
destination). -/
theorem claim_C7_witness :
    (∃ r1, NachaRecord.setValue fileControlCex "batchCount" "5".toList = .ok r1
      ∧ r1.data.length = fileControlCex.data.length
      ∧ (0 = NUMERIC → r1.getValue "batchCount"
            = .ok (List.replicate (7 - 1 - "5".toList.length) '0' ++ "5".toList))
      ∧ (0 = ALPHAMERIC → r1.getValue "batchCount"
            = .ok ("5".toList ++ List.replicate (7 - 1 - "5".toList.length) ' '))
      ∧ (0 = ROUTING → r1.getValue "batchCount"
            = .ok (List.replicate (7 - 1 - "5".toList.length) ' ' ++ "5".toList)))
    ∧ (∃ r1, NachaRecord.setValue fileHeaderCex "refCode" "AB".toList = .ok r1
      ∧ r1.data.length = fileHeaderCex.data.length
      ∧ (1 = NUMERIC → r1.getValue "refCode"
            = .ok (List.replicate (94 - 86 - "AB".toList.length) '0' ++ "AB".toList))
      ∧ (1 = ALPHAMERIC → r1.getValue "refCode"
            = .ok ("AB".toList ++ List.replicate (94 - 86 - "AB".toList.length) ' '))
      ∧ (1 = ROUTING → r1.getValue "refCode"
            = .ok (List.replicate (94 - 86 - "AB".toList.length) ' ' ++ "AB".toList)))
    ∧ (∃ r1, NachaRecord.setValue fileHeaderCex "destination" "123".toList = .ok r1
      ∧ r1.data.length = fileHeaderCex.data.length
      ∧ (2 = NUMERIC → r1.getValue "destination"
            = .ok (List.replicate (13 - 3 - "123".toList.length) '0' ++ "123".toList))
      ∧ (2 = ALPHAMERIC → r1.getValue "destination"
            = .ok ("123".toList ++ List.replicate (13 - 3 - "123".toList.length) ' '))
      ∧ (2 = ROUTING → r1.getValue "destination"
            = .ok (List.replicate (13 - 3 - "123".toList.length) ' ' ++ "123".toList))) :=
  ⟨claim_C7 fileControlCex "batchCount" "Batch Count" 1 7 0 "5".toList
      (by decide) (by decide) (by decide) (by decide) (by decide),
   claim_C7 fileHeaderCex "refCode" "Reference Code" 86 94 1 "AB".toList
      (by decide) (by decide) (by decide) (by decide) (by decide),
   claim_C7 fileHeaderCex "destination" "Immediate Destination" 3 13 2 "123".toList
      (by decide) (by decide) (by decide) (by decide) (by decide)⟩

/-- C10: adding an already-locked entry (any entry previously absorbed by
an `addEntry`) to a non-finalized batch raises the locked-record error and
leaves both the batch's entry sequence and the entry unchanged. -/
theorem claim_C10 (b : NachaBatch) (e : NachaRecord) (nm : String) (a c : Nat)
    (ty : Option Nat) (hb : b.finalized = false) (he : e.locked = true)
    (hod : findField b.batchHeader.fields "odfiId" = some ⟨nm, a, c, ty⟩) :
    NachaBatch.addEntry b e = (b, e, some "Cannot set values on a locked record.") := by
  simp only [NachaBatch.addEntry, hb, Bool.not_false, if_true,
    getValue_eq b.batchHeader "odfiId" nm a c ty hod, NachaEntry.setValue,
    NachaRecord.setValue, he, if_true]

/-- C10 witness: after a successful `addEntry` the absorbed entry is
locked, and adding that same entry again fails with the locked-record
error, changing nothing. -/
theorem claim_C10_witness :
    batchOneCex.1.finalized = false ∧ batchOneCex.2.1.locked = true
    ∧ NachaBatch.addEntry batchOneCex.1 batchOneCex.2.1
        = (batchOneCex.1, batchOneCex.2.1, some "Cannot set values on a locked record.") :=
  ⟨by decide, by decide,
   claim_C10 batchOneCex.1 batchOneCex.2.1
     "Originating DFI Identification" 79 87 (some ALPHAMERIC)
     (by decide) (by decide) (by decide)⟩

/-- C1 (code behavior at the failing input): with routing number
`"00000000"` the weighted sum is 0, `calculateCheckDigit` returns `10 -
0 % 10 = 10` (not `(10 - 0) % 10 = 0`), and writing `str(10) = "10"` into
the 1-wide checkDigit field truncates it to `"1"`; moreover `checkDigit`
can be set directly, independently of `rdfiId`. -/
theorem claim_C1_code_behavior :
    entryZeroCex.2 = none
    ∧ calculateCheckDigit entryZeroCex.1 = some 10
    ∧ NachaRecord.getValue entryZeroCex.1 "checkDigit" = .ok ['1']
    ∧ (NachaEntry.setValue entryZeroCex.1 "checkDigit" ['7']).2 = none
    ∧ NachaRecord.getValue (NachaEntry.setValue entryZeroCex.1 "checkDigit" ['7']).1
        "checkDigit" = .ok ['7'] :=
  ⟨rfl, rfl, rfl, rfl, rfl⟩

/-- C2 (code behavior at the failing input): the untyped `creationDate`
field (width 6) receives a 2-character value; the Python slice assignment
replaces 6 buffer bytes by 2, shrinking the record from 94 to 90 bytes. -/
theorem claim_C2_code_behavior :
    fileHeaderCex.data.length = 94
    ∧ (NachaRecord.setValue fileHeaderCex "creationDate" "97".toList).map
        (fun r => r.data.length) = .ok 90 :=
  ⟨rfl, rfl⟩

/-- C6 (code behavior at the failing input): the entry's `odfiId`
descriptor is `(80, 88)`, i.e. 1-based positions 80–88 — nine bytes, not
the claimed 80–87 — so writing the batch header's 8-character odfiId into
it replaces nine bytes by eight, shrinking the buffer to 93 bytes and
shifting positions 89–94 left by one. -/
theorem claim_C6_code_behavior :
    findField entryFields "odfiId"
      = some ⟨"Trace Number - Originating DFI Identification", 79, 88, none⟩
    ∧ entryCex.1.data.length = 94
    ∧ (NachaEntry.setValue entryCex.1 "odfiId" "12345678".toList).2 = none
    ∧ (NachaEntry.setValue entryCex.1 "odfiId" "12345678".toList).1.data.length = 93 :=
  ⟨rfl, rfl, rfl, rfl⟩

/-- C8 counterexample: a failing `NachaEntry.setValue` of `rdfiId` with a
non-numeric value raises the check-digit `ValueError` only after the
`rdfiId` bytes are already written: the failed call leaves the record
changed. -/
theorem claim_C8_counterexample :
    (NachaEntry.setValue entryCex.1 "rdfiId" "ABCDEFGH".toList).2
        = some "ValueError: invalid literal for int()"
    ∧ (NachaEntry.setValue entryCex.1 "rdfiId" "ABCDEFGH".toList).1 ≠ entryCex.1 := by
  refine ⟨rfl, by decide⟩

/-- C8 amended: the finalization guards of `addEntry` and `addBatch` fail
before mutating anything, and a locked-record `setValue` failure mutates
nothing; only a failing `rdfiId` write on an entry (and a finalize that
raises mid-way) leaves partial writes behind. -/
theorem claim_C8_amended :
    (∀ (b : NachaBatch) (e : NachaRecord), b.finalized = true →
      NachaBatch.addEntry b e
        = (b, e, some "Entries cannot be added after the batch has been finalized."))
    ∧ (∀ (f : NachaFile) (bt : NachaBatch), f.finalized = true →
      NachaFile.addBatch f bt
        = (f, bt, some "Batches cannot be added after the file is finalized."))
    ∧ (∀ (r : NachaRecord) (n : String) (v : List Char), r.locked = true →
      NachaEntry.setValue r n v = (r, some "Cannot set values on a locked record.")) := by
  refine ⟨?_, ?_, ?_⟩
  · intro b e hb
    simp only [NachaBatch.addEntry, hb, Bool.not_true, Bool.false_eq_true, if_false]
  · intro f bt hf
    simp only [NachaFile.addBatch, hf, Bool.not_true, Bool.false_eq_true, if_false]
  · intro r n v hr
    simp only [NachaEntry.setValue, NachaRecord.setValue, hr, if_true]

/-- A batch finalized through `addBatch`, and the resulting finalized file. -/
def batchFinCex : NachaBatch := (NachaFile.addBatch fileCex.1 batchCex.1).2.1

def fileOneBatchCex : NachaFile := (NachaFile.addBatch fileCex.1 batchCex.1).1

def fileFinCex : NachaFile := (NachaFile.finalize fileOneBatchCex).1

/-- C8 witness: the three guards observed on concrete finalized/locked
state. -/
theorem claim_C8_witness :
    NachaBatch.addEntry batchFinCex entryCex.1
      = (batchFinCex, entryCex.1,
         some "Entries cannot be added after the batch has been finalized.")
    ∧ NachaFile.addBatch fileFinCex batchCex.1
      = (fileFinCex, batchCex.1,
         some "Batches cannot be added after the file is finalized.")
    ∧ NachaEntry.setValue batchOneCex.2.1 "amount" "9".toList
      = (batchOneCex.2.1, some "Cannot set values on a locked record.") :=
  ⟨claim_C8_amended.1 batchFinCex entryCex.1 (by decide),
   claim_C8_amended.2.1 fileFinCex batchCex.1 (by decide),
   claim_C8_amended.2.2 batchOneCex.2.1 "amount" "9".toList (by decide)⟩

/-! C5: the `NotFinalized` guard lives in `writeToFile`, not in the
text-rendering `toString`. -/

theorem andThen_snd_none {α : Type} {step : α × Option String} {k : α → α × Option String}
    (h : (andThen step k).2 = none) : ∃ a, step = (a, none) ∧ andThen step k = k a := by
  rcases hstep : step with ⟨a, err⟩
  cases err with
  | none => exact ⟨a, rfl, rfl⟩
  | some e =>
    rw [hstep] at h
    simp [andThen] at h

theorem finalize_ok_finalized (f : NachaFile) (h : (NachaFile.finalize f).2 = none) :
    (NachaFile.finalize f).1.finalized = true := by
  by_cases hf : f.finalized = true
  · unfold NachaFile.finalize
    rw [if_pos hf]
    exact hf
  · unfold NachaFile.finalize at h ⊢
    rw [if_neg hf] at h ⊢
    obtain ⟨a1, _, he1⟩ := andThen_snd_none h
    rw [he1] at h ⊢
    try simp only [] at h ⊢
    rcases hbt : batchTotalsLoop a1.batches 0 0 0 0 with _ | ⟨ec, eh, d, c⟩
    · rw [hbt] at h
      simp at h
    · rw [hbt] at h
      try simp only [] at h ⊢
      obtain ⟨a2, _, he2⟩ := andThen_snd_none h
      rw [he2] at h ⊢
      try simp only [] at h ⊢
      obtain ⟨a3, _, he3⟩ := andThen_snd_none h
      rw [he3] at h ⊢
      try simp only [] at h ⊢
      obtain ⟨a4, _, he4⟩ := andThen_snd_none h
      rw [he4] at h ⊢
      try simp only [] at h ⊢
      obtain ⟨a5, _, he5⟩ := andThen_snd_none h
      rw [he5] at h ⊢
      try simp only [] at h ⊢
      rcases hbfq : pyIntOfExcept (a5.fileHeader.getValue "blockingFactor") with _ | bfv
      · rw [hbfq] at h
        simp at h
      · rw [hbfq] at h
        try simp only [] at h ⊢
        by_cases hbf0 : bfv = 0
        · rw [if_pos hbf0] at h
          simp at h
        · rw [if_neg hbf0] at h ⊢
          obtain ⟨a6, _, he6⟩ := andThen_snd_none h
          rw [he6]

/-- C5 counterexample: on a file that has not been finalized, rendering to
text succeeds (the 194-character skeleton of header, empty batch list and
control is produced); only `writeToFile` raises the not-finalized error. -/
theorem claim_C5_counterexample :
    fileCex.1.finalized = false
    ∧ (NachaFile.toString fileCex.1).length = 194
    ∧ NachaFile.writeToFile fileCex.1
        = .error "The file cannot be written until it is finalized." :=
  ⟨rfl, rfl, rfl⟩

/-- C5 amended: `toString` is total and never checks finalization; the
not-finalized guard is `writeToFile`'s: writing fails before `finalize()`
and, after a successful `finalize()`, succeeds and emits `toString`'s
text. -/
theorem claim_C5_amended (f : NachaFile) :
    (f.finalized = false → NachaFile.writeToFile f
        = .error "The file cannot be written until it is finalized.")
    ∧ ((NachaFile.finalize f).2 = none →
        NachaFile.writeToFile (NachaFile.finalize f).1
          = .ok (NachaFile.toString (NachaFile.finalize f).1)) := by
  constructor
  · intro h
    simp only [NachaFile.writeToFile, h, Bool.false_eq_true, if_false]
  · intro h
    simp only [NachaFile.writeToFile, finalize_ok_finalized f h, if_true]

/-- C5 witness: the amended behavior observed on a concrete file. -/
theorem claim_C5_witness :
    NachaFile.writeToFile fileCex.1
        = .error "The file cannot be written until it is finalized."
    ∧ NachaFile.writeToFile (NachaFile.finalize fileCex.1).1
        = .ok (NachaFile.toString (NachaFile.finalize fileCex.1).1) :=
  ⟨(claim_C5_amended fileCex.1).1 rfl, (claim_C5_amended fileCex.1).2 rfl⟩

/-! C9: the shape of the rendered text. -/

theorem crlfJoin_cons_of_ne_nil (x : List Char) (l : List (List Char)) (hl : l ≠ []) :
    crlfJoin (x :: l) = x ++ NACHA_EOL ++ crlfJoin l := by
  cases l with
  | nil => contradiction
  | cons y ys => rfl

theorem crlfJoin_append_of_ne_nil : ∀ (xs ys : List (List Char)), xs ≠ [] → ys ≠ [] →
    crlfJoin (xs ++ ys) = crlfJoin xs ++ NACHA_EOL ++ crlfJoin ys
  | [], _, hx, _ => absurd rfl hx
  | [a], ys, _, hy => by
    rw [List.singleton_append, crlfJoin_cons_of_ne_nil a ys hy]
    rfl
  | a :: b :: bs, ys, _, hy => by
    rw [List.cons_append,
      crlfJoin_cons_of_ne_nil a ((b :: bs) ++ ys) (by simp),
      crlfJoin_cons_of_ne_nil a (b :: bs) (by simp),
      crlfJoin_append_of_ne_nil (b :: bs) ys (by simp) hy]
    simp [List.append_assoc]

/-- Rendering of one batch exactly as claim C9 words it: the CRLF-join of
the header line, the entry lines in order, and the control line (a
spec-side definition, for comparison with the code's `toString`). -/
def claimBatchRender (b : NachaBatch) : List Char :=
  crlfJoin ([b.batchHeader.data] ++ b.entries.map (fun e => e.data) ++ [b.batchControl.data])

/-- Rendering of the file exactly as claim C9 words it: the CRLF-join of
the header line, each batch's rendering, the control line, and the filler
lines only when there are any — with no other separators and no trailing
content when there are none. -/
def claimFileRender (f : NachaFile) : List Char :=
  crlfJoin ([f.fileHeader.data] ++ f.batches.map claimBatchRender ++ [f.fileControl.data]
    ++ (if f.nineFill = [] then [] else [f.nineFill]))

theorem crlfJoin_three (x y z : List Char) :
    crlfJoin [x, y, z] = x ++ NACHA_EOL ++ (y ++ NACHA_EOL ++ z) := rfl

theorem crlfJoin_four (w x y z : List Char) :
    crlfJoin [w, x, y, z]
      = w ++ NACHA_EOL ++ (x ++ NACHA_EOL ++ (y ++ NACHA_EOL ++ z)) := rfl

theorem batch_toString_spec (b : NachaBatch) (h : b.entries ≠ []) :
    NachaBatch.toString b = claimBatchRender b := by
  have hm : b.entries.map (fun e => e.data) ≠ [] := by simpa using h
  unfold NachaBatch.toString claimBatchRender NachaRecord.toString
  rw [crlfJoin_three]
  rw [show ([b.batchHeader.data] ++ b.entries.map (fun e => e.data) ++ [b.batchControl.data])
      = b.batchHeader.data :: (b.entries.map (fun e => e.data) ++ [b.batchControl.data])
    from by simp]
  rw [crlfJoin_cons_of_ne_nil _ _ (by simp),
    crlfJoin_append_of_ne_nil (b.entries.map (fun e => e.data)) [b.batchControl.data] hm
      (by simp)]
  simp [List.append_assoc, crlfJoin]

/-- C9 amended: the rendered file text always CRLF-joins the four
components header, batch block, control, and `nineFill`; with at least one
batch, each with at least one entry, this matches the claim's join exactly
when filler lines exist, and otherwise carries one trailing CRLF beyond the
claim's join (an empty batch list or a zero-entry batch likewise
contributes a blank line). -/
theorem claim_C9_amended (f : NachaFile) (hb : f.batches ≠ [])
    (hbe : ∀ b ∈ f.batches, b.entries ≠ []) :
    (f.nineFill ≠ [] → NachaFile.toString f = claimFileRender f)
    ∧ (f.nineFill = [] → NachaFile.toString f = claimFileRender f ++ NACHA_EOL) := by
  have hmap : f.batches.map NachaBatch.toString = f.batches.map claimBatchRender :=
    List.map_congr_left (fun b hbm => batch_toString_spec b (hbe b hbm))
  have hbm : f.batches.map claimBatchRender ≠ [] := by simpa using hb
  unfold NachaFile.toString claimFileRender NachaRecord.toString
  rw [crlfJoin_four, hmap]
  constructor
  · intro hn
    rw [if_neg hn]
    rw [show ([f.fileHeader.data] ++ f.batches.map claimBatchRender ++ [f.fileControl.data]
          ++ [f.nineFill])
        = f.fileHeader.data :: (f.batches.map claimBatchRender
            ++ ([f.fileControl.data] ++ [f.nineFill]))
      from by simp]
    rw [crlfJoin_cons_of_ne_nil _ _ (by simp),
      crlfJoin_append_of_ne_nil (f.batches.map claimBatchRender)
        ([f.fileControl.data] ++ [f.nineFill]) hbm (by simp),
      crlfJoin_append_of_ne_nil [f.fileControl.data] [f.nineFill] (by simp) (by simp)]
    simp [List.append_assoc, crlfJoin]
  · intro hn
    rw [if_pos hn, hn]
    rw [show ([f.fileHeader.data] ++ f.batches.map claimBatchRender ++ [f.fileControl.data]
          ++ ([] : List (List Char)))
        = f.fileHeader.data :: (f.batches.map claimBatchRender ++ [f.fileControl.data])
      from by simp]
    rw [crlfJoin_cons_of_ne_nil _ _ (by simp),
      crlfJoin_append_of_ne_nil (f.batches.map claimBatchRender) [f.fileControl.data] hbm
        (by simp)]
    simp [List.append_assoc, crlfJoin]

/-- A batch with six entries; with one batch the record count is
`2 + 2 + 6 = 10`, so finalize generates no filler lines. -/
def batchSixCex : NachaBatch :=
  ((((((batchCex.1.addEntry entryCex.1).1.addEntry entryCex.1).1.addEntry
    entryCex.1).1.addEntry entryCex.1).1.addEntry entryCex.1).1.addEntry entryCex.1).1

def fileTenCex : NachaFile :=
  (NachaFile.finalize (NachaFile.addBatch fileCex.1 batchSixCex).1).1

/-- C9 counterexample: a finalized file whose record count is an exact
multiple of the blocking factor has no filler lines, and its rendering is
NOT the claim's join — the code appends one trailing CRLF (the separator
before the empty `nineFill`). -/
theorem claim_C9_counterexample :
    fileTenCex.finalized = true
    ∧ fileTenCex.nineFill = []
    ∧ NachaFile.toString fileTenCex ≠ claimFileRender fileTenCex
    ∧ NachaFile.toString fileTenCex = claimFileRender fileTenCex ++ NACHA_EOL :=
  ⟨rfl, rfl, by decide, rfl⟩

/-- A finalized file with one batch of one entry: record count 5, so five
filler lines are present. -/
def fileFiveCex : NachaFile :=
  (NachaFile.finalize (NachaFile.addBatch fileCex.1 batchOneCex.1).1).1

/-- C9 witness: the amended statement observed concretely — with filler
lines the rendering matches the claim's join exactly; without them it is
that join plus one trailing CRLF. -/
theorem claim_C9_witness :
    NachaFile.toString fileFiveCex = claimFileRender fileFiveCex
    ∧ NachaFile.toString fileTenCex = claimFileRender fileTenCex ++ NACHA_EOL := by
  refine ⟨?_, ?_⟩
  · exact (claim_C9_amended fileFiveCex (by decide) (by decide)).1 (by decide)
  · exact (claim_C9_amended fileTenCex (by decide) (by decide)).2 rfl

/-- C3 witness: the example from the claim — one batch, zero entries —
gives record count 4, block count 1, and six filler lines of 94 `'9'`s. -/
theorem claim_C3_witness :
    ∃ f1, NachaFile.finalize fileOneBatchCex = (f1, none)
      ∧ f1.finalized = true
      ∧ f1.batches = fileOneBatchCex.batches
      ∧ pyIntField f1.fileControl "batchCount" = some 1
      ∧ pyIntField f1.fileControl "entryCount" = some 0
      ∧ pyIntField f1.fileControl "entryHash" = some 0
      ∧ pyIntField f1.fileControl "debitAmount" = some 0
      ∧ pyIntField f1.fileControl "creditAmount" = some 0
      ∧ pyIntField f1.fileControl "blockCount" = some 1
      ∧ ((2 + fileOneBatchCex.batches.length * 2 + 0) % 10 ≠ 0 →
          f1.nineFill = crlfJoin (List.replicate
            (10 - (2 + fileOneBatchCex.batches.length * 2 + 0) % 10)
            (List.replicate 94 '9')))
      ∧ ((2 + fileOneBatchCex.batches.length * 2 + 0) % 10 = 0 →
          f1.nineFill = fileOneBatchCex.nineFill) :=
  claim_C3 fileOneBatchCex [(0, 0, 0, 0)] 10 (by decide) (by decide) (by decide)
    (by decide) rfl (by decide)
    (by refine List.Forall₂.cons ?_ List.Forall₂.nil
        refine ⟨?_, ?_, ?_, ?_, ?_, ?_⟩ <;> rfl)
    (by decide) (by decide) (by decide) (by decide) (by decide)

/-- C4 witness: a mixed (`"200"`) batch with one entry of routing id
07640125 and amount 5000: entry count 1, entry hash 7640125, and the
amount accumulated into both the debit and the credit total. -/
theorem claim_C4_witness :
    ∃ b1, NachaBatch.finalize
        ⟨false, batchOneCex.1.entries, batchOneCex.1.batchHeader,
          batchOneCex.1.batchControl⟩ 1 = (b1, none)
      ∧ b1.finalized = true
      ∧ b1.entries = batchOneCex.1.entries
      ∧ pyIntField b1.batchControl "entryCount" = some 1
      ∧ pyIntField b1.batchControl "entryHash" = some 7640125
      ∧ pyIntField b1.batchControl "debitAmount" = some 5000
      ∧ pyIntField b1.batchControl "creditAmount" = some 5000 :=
  claim_C4 batchOneCex.1.batchHeader batchOneCex.1.batchControl batchOneCex.1.entries
    [(7640125, 5000)] "200".toList 1 (by decide) (by decide) (by decide) (by decide)
    (by decide) (by decide) rfl
    (by refine List.Forall₂.cons ⟨?_, ?_⟩ List.Forall₂.nil <;> rfl)
    (by decide) (by decide)
